import Mathlib

/-!
Verification development for the Skopos server-side analytics SDK
(src/index.js and src/modules/utils.js).

The JavaScript source is shallowly embedded as follows:
- machine integers and timestamps are Nat (milliseconds), JS numbers used in
  comparisons are Int where negativity matters;
- JS `Map` objects are association lists in insertion order (`Map.set` of an
  existing key keeps its position, a new key is appended, matching JS);
- JS template-literal rendering of `undefined` is the string "undefined";
- the external PocketBase store is an oracle `Nat -> StoreReply` consumed one
  reply per call, together with a log of the calls issued;
- external libraries (isbot, ua-parser-js, ipaddr.js, URL parsing) and the
  sanitizer boundary are fields of an `Env` record, universally quantified in
  the theorems;
- sha256 hex digests are modelled by their preimage strings (the code only
  ever uses the digests as exact-match keys).
-/

namespace Skopos

/-- JS truthiness for an optional string: present and non-empty. -/
def optTruthy : Option String → Bool
  | none => false
  | some s => s ≠ ""

/-- Underlying string of an optional value, empty when absent. -/
def optStr : Option String → String
  | none => ""
  | some s => s

/-- JS template-literal rendering: `undefined` renders as "undefined". -/
def jsStr : Option String → String
  | none => "undefined"
  | some s => s

/-- Prefix test on character lists (structural, so that proofs can evaluate
it). -/
def listPrefixOf : List Char → List Char → Bool
  | [], _ => true
  | _ :: _, [] => false
  | a :: as, b :: bs => a = b && listPrefixOf as bs

/-- Substring test on character lists: the first list occurs contiguously in
the second. -/
def listInfixOf (sub : List Char) : List Char → Bool
  | [] => listPrefixOf sub []
  | b :: bs => listPrefixOf sub (b :: bs) || listInfixOf sub bs

/-- Case-sensitive substring test, modelling JS `String.includes`. -/
def containsStr (s sub : String) : Bool :=
  listInfixOf sub.data s.data

/-- Lower-casing by character list (structural, so that proofs can evaluate
it), modelling JS `String.toLowerCase` on ASCII. -/
def strLower (s : String) : String :=
  String.mk (s.data.map Char.toLower)

/-- Case-insensitive substring test, modelling an /i regex alternative. -/
def containsStrCI (s sub : String) : Bool :=
  containsStr (strLower s) (strLower sub)

/-- Suffix test, modelling JS `String.endsWith`. -/
def jsEndsWith (s suffix : String) : Bool :=
  suffix.data.isSuffixOf s.data

/-- Prefix test, modelling JS `String.startsWith`. -/
def jsStartsWith (s pre : String) : Bool :=
  pre.data.isPrefixOf s.data

/-- Split a character list on the newline character, modelling JS
`String.split("\n")` (always returns at least one piece). -/
def splitNl : List Char → List (List Char)
  | [] => [[]]
  | c :: rest =>
    match splitNl rest with
    | [] => [[]]
    | first :: others =>
      if c = '\n' then [] :: first :: others else (c :: first) :: others

/-- The second line of a stack trace: JS `stack.split("\n")[1]`, which is the
string "undefined" (template-literal rendering of `undefined`) when the stack
has fewer than two lines. -/
def errSecondLine (stack : String) : String :=
  match splitNl stack.data with
  | _ :: l :: _ => String.mk l
  | _ => "undefined"

/-- The JS-error dedup identifier from src/index.js line 958:
`errorMessage + "\n" + (stackTrace || "").split("\n")[1]`.
The sha256 hex digest computed from it (line 959) is modelled by the
identifier itself, which the code uses only as an exact-match key. -/
def errIdentifier (errorMessage : Option String) (stackTrace : Option String) : String :=
  jsStr errorMessage ++ "\n" ++
    errSecondLine (if optTruthy stackTrace then optStr stackTrace else "")

/-- JS `Map.set`: replace the value at an existing key in place, append a new
key at the end. -/
def assocSet {β : Type} (k : String) (v : β) : List (String × β) → List (String × β)
  | [] => [(k, v)]
  | (k', v') :: rest =>
    if k' = k then (k, v) :: rest else (k', v') :: assocSet k v rest

/-- JS `Map.delete`. -/
def assocDelete {β : Type} (k : String) : List (String × β) → List (String × β)
  | [] => []
  | (k', v') :: rest =>
    if k' = k then rest else (k', v') :: assocDelete k rest

/-- JS `Map.get`: first (and in practice unique) binding of the key. -/
def assocGet {β : Type} (k : String) : List (String × β) → Option β
  | [] => none
  | (k', v') :: rest => if k' = k then some v' else assocGet k rest

/-! Constants from src/index.js lines 20-31. -/

def DEFAULT_SESSION_TIMEOUT_MS : Nat := 1000 * 60 * 30
def VISITOR_CACHE_TTL_MS : Nat := 1000 * 60 * 15
def VISITOR_CACHE_MAX_SIZE : Nat := 2000
def VISITOR_CACHE_CLEANUP_THRESHOLD : Nat := 200
def JS_ERROR_QUEUE_MAX_SIZE : Nat := 100
def EVENT_QUEUE_MAX_SIZE : Nat := 500

/-- The request headers consulted by the SDK (subset of `req.headers`);
each field is `none` when the header is absent. -/
structure Headers where
  accept : Option String := none
  acceptLanguage : Option String := none
  acceptEncoding : Option String := none
  xSelenium : Option String := none
  xPuppeteer : Option String := none
  xPlaywright : Option String := none
  xAutomated : Option String := none
  xWebdriver : Option String := none
  secChUaPlatform : Option String := none
  secFetchSite : Option String := none
  connection : Option String := none
  referer : Option String := none
  referrer : Option String := none
  deriving Repr, DecidableEq

/-- Result of the external ua-parser-js library for one user-agent string.
`browserMajor = some m` models a truthy `browser.name` and `browser.version`
whose first dot-component parses to the integer m; `none` covers a missing
version and a NaN parse (both leave the score unchanged in the source). -/
structure UAInfo where
  browserName : Option String := none
  osName : Option String := none
  deviceType : Option String := none
  browserMajor : Option Int := none
  deriving Repr, DecidableEq

/-- The sanitized client payload handed to `trackApiEvent`
(shape of `validateAndSanitizeApiPayload`'s result). -/
structure ApiPayload where
  ptype : String := "pageView"
  url : String := ""
  name : Option String := none
  referrer : Option String := none
  language : Option String := none
  customDuration : Option Int := none
  customDataPresent : Bool := false
  customDataNonempty : Bool := false
  errorMessage : Option String := none
  stackTrace : Option String := none
  deriving Repr, DecidableEq

/-- External collaborators (spec section 6): the isbot library, the
BOT_PATTERNS regex engine, ua-parser-js, ipaddr.js loopback classification
(`none` = the parse throws), the URL parser, and the sanitized-payload
boundary (`validateAndSanitizeApiPayload`). -/
structure Env where
  isbotO : String → Bool
  botPatternsO : String → Bool
  uaParse : String → UAInfo
  ipIsLoopback : String → Option Bool
  urlHostname : String → Option String
  urlPathname : String → Option String
  urlHref : String → Option String
  sanitize : ApiPayload → Option ApiPayload

/-- ACCEPT_HEADER_PATTERN from src/modules/utils.js line 16:
/html|xml|xhtml|json|star-slash/i as a substring test ("xhtml" is subsumed by
"html"). -/
def acceptPatternTest (s : String) : Bool :=
  containsStrCI s "html" || containsStrCI s "xml" || containsStrCI s "json" ||
    containsStr s "*/"

/-- BOT_REFERER_PATTERN from src/modules/utils.js line 15: /bot|crawl|spider|scrape/i. -/
def botRefererTest (s : String) : Bool :=
  containsStrCI s "bot" || containsStrCI s "crawl" || containsStrCI s "spider" ||
    containsStrCI s "scrape"

/-- CHROME_EDGE_PATTERN from src/modules/utils.js line 14: /Chrome|Edge/i. -/
def chromeEdgeTest (s : String) : Bool :=
  containsStrCI s "Chrome" || containsStrCI s "Edge"

/-- Model of `calculateBotScore` (src/modules/utils.js lines 62-153),
line by line in source order. -/
def calculateBotScore (env : Env) (userAgent : Option String) (headers : Option Headers) : Nat :=
  if optTruthy userAgent && env.isbotO (optStr userAgent) then 100
  else if !optTruthy userAgent || (optStr userAgent).length < 10 then 80
  else
    let ua := optStr userAgent
    let score := if ua.length > 512 then 40 else 0
    if env.botPatternsO ua then 90
    else
      let uaInfo := env.uaParse ua
      let score := score +
        (if !optTruthy uaInfo.browserName && !optTruthy uaInfo.osName &&
            ua.length > 20 then 40 else 0)
      let score := score +
        (if uaInfo.deviceType = some "spider" || uaInfo.deviceType = some "bot"
         then 50 else 0)
      let score := score +
        (if uaInfo.browserName = some "Other" && !optTruthy uaInfo.osName &&
            !optTruthy uaInfo.deviceType then 30 else 0)
      let score := score +
        (match uaInfo.browserMajor with
         | some m =>
           if (uaInfo.browserName = some "Chrome" && m < 80) ||
              (uaInfo.browserName = some "Firefox" && m < 70) ||
              (uaInfo.browserName = some "Safari" && m < 12) ||
              (uaInfo.browserName = some "Edge" && m < 80) then 25 else 0
         | none => 0)
      match headers with
      | none => min score 100
      | some h =>
        let missing :=
          (if optTruthy h.accept then 0 else 1) +
          (if optTruthy h.acceptLanguage then 0 else 1) +
          (if optTruthy h.acceptEncoding then 0 else 1)
        let score := score + missing * 15
        let score := score + (if !optTruthy h.acceptLanguage then 20 else 0)
        let score := score +
          (if optTruthy h.accept && h.accept ≠ some "*/*" &&
              !acceptPatternTest (optStr h.accept) then 10 else 0)
        let score := score +
          (if h.accept = some "*/*" && !optTruthy h.acceptLanguage then 25 else 0)
        if optTruthy h.xSelenium || optTruthy h.xPuppeteer || optTruthy h.xPlaywright ||
           optTruthy h.xAutomated || optTruthy h.xWebdriver then 100
        else if optTruthy h.secChUaPlatform &&
                containsStr (optStr h.secChUaPlatform) "Headless" then 100
        else
          let score := score +
            (if chromeEdgeTest ua && !optTruthy h.secFetchSite then 15 else 0)
          let score := score +
            (if optTruthy h.connection && strLower (optStr h.connection) = "close" &&
                optTruthy h.acceptEncoding then 10 else 0)
          let ref := if optTruthy h.referer then h.referer else h.referrer
          let score := score +
            (if optTruthy ref &&
                (botRefererTest (optStr ref) || (optStr ref).length > 512)
             then 30 else 0)
          min score 100

/-- Model of `detectBot` (src/modules/utils.js lines 162-181) on an empty
memoization cache: the cache stores exactly `score >= 70` per user-agent, so
it does not change the classification. BOT_SCORE_THRESHOLD = 70. -/
def detectBot (env : Env) (userAgent : Option String) (headers : Option Headers) : Bool :=
  calculateBotScore env userAgent headers ≥ 70

/-- Model of `parseUserAgent` (src/modules/utils.js lines 189-198). -/
def parseUserAgent (env : Env) (userAgent : Option String) : UAInfo :=
  env.uaParse (optStr userAgent)

/-- Model of `generateVisitorId` (src/modules/utils.js lines 226-229).
The sha256 hex digest is modelled by its preimage string, which the code
only uses as an exact-match cache and store key. -/
def generateVisitorId (siteId ip userAgent : Option String) : String :=
  jsStr siteId ++ "-" ++ (if optTruthy ip then optStr ip else "unknown") ++ "-" ++
    (if optTruthy userAgent then optStr userAgent else "unknown")

/-! External-store model. Each call to PocketBase consumes one reply from an
oracle `Nat -> StoreReply` (indexed by call order) and is appended to a log of
issued calls. -/

/-- Error classes distinguished by the source: 404 (`status === 404`),
conflict on create (`status === 400 || data.data.visitorId`), anything else. -/
inductive StoreErr where
  | notFound
  | conflict
  | other
  deriving Repr, DecidableEq

/-- One reply from the external store: a record id, a plain success, or an
error class. -/
inductive StoreReply where
  | okId (id : Nat)
  | okUnit
  | errNotFound
  | errConflict
  | errOther
  deriving Repr, DecidableEq

/-- The calls the embedded pipeline issues to the external store. -/
inductive StoreCall where
  | lookupVisitor (visitorId : String)
  | createVisitor (visitorId : String)
  | createSession (visitorRecId : Nat)
  | updateSessionExit (sessionRecId : Nat) (path : String)
  | createEvent (sessionRecId : Nat)
  | lookupError (hash : String)
  | updateErrorCount (recId : Nat) (inc : Nat)
  | createError (hash : String) (count : Nat)
  deriving Repr, DecidableEq

/-- Call counter plus log of issued store calls. -/
structure StoreCtx where
  idx : Nat
  log : List StoreCall
  deriving Repr, DecidableEq

def StoreCtx.init : StoreCtx := ⟨0, []⟩

/-- Issue one store call: consume the next oracle reply, append to the log. -/
def storeCall (oracle : Nat → StoreReply) (ctx : StoreCtx) (c : StoreCall) :
    StoreReply × StoreCtx :=
  (oracle ctx.idx, ⟨ctx.idx + 1, ctx.log ++ [c]⟩)

/-- Interpret a reply from a call that returns a record. -/
def asId : StoreReply → Except StoreErr Nat
  | .okId n => .ok n
  | .okUnit => .error .other
  | .errNotFound => .error .notFound
  | .errConflict => .error .conflict
  | .errOther => .error .other

/-- Interpret a reply from a call whose returned record is discarded. -/
def asUnit : StoreReply → Except StoreErr Unit
  | .okId _ => .ok ()
  | .okUnit => .ok ()
  | .errNotFound => .error .notFound
  | .errConflict => .error .conflict
  | .errOther => .error .other

/-! SDK instance state: the fields of the `SkoposSDK` object that the
event-processing pipeline reads or writes. -/

/-- A session cache entry (src/index.js lines 937-942):
`{sessionId, lastActivity, eventCount, isEngaged}`. -/
structure SessionEntry where
  sessionId : Nat
  lastActivity : Nat
  eventCount : Nat
  isEngaged : Bool
  deriving Repr, DecidableEq

/-- A visitor cache entry (src/index.js line 768): `{id, cachedAt}`. -/
structure VisitorCacheEntry where
  id : Nat
  cachedAt : Nat
  deriving Repr, DecidableEq

/-- A queued JS error (src/index.js lines 969-975). -/
structure ErrEntry where
  sessionId : Nat
  errorMessage : Option String
  stackTrace : Option String
  url : String
  count : Nat
  deriving Repr, DecidableEq

inductive EvType where
  | pageView
  | custom
  | jsError
  deriving Repr, DecidableEq

/-- A queued outgoing event record (src/index.js lines 981-994); the store
payload fields other than the session reference are carried by the session id
and flags (their values do not feed back into the pipeline). -/
structure EventPayload where
  session : Nat
  etype : EvType
  path : String
  eventName : Option String
  hasEventData : Bool
  deriving Repr, DecidableEq

/-- The mutable SDK state touched by `_processAndQueueEvent` and the
configuration fields it reads. -/
structure SdkState where
  websiteRecordId : Nat := 0
  siteId : Option String := none
  domain : Option String := none
  isArchived : Bool := false
  ipBlacklist : List String := []
  disableLocalhostTracking : Bool := false
  storeRawIp : Bool := false
  sessionTimeout : Nat := DEFAULT_SESSION_TIMEOUT_MS
  batchingEnabled : Bool := false
  maxBatchSize : Nat := 100
  sessionCache : List (String × SessionEntry) := []
  visitorCache : List (String × VisitorCacheEntry) := []
  eventQueue : List EventPayload := []
  jsErrorQueue : List (String × ErrEntry) := []
  deriving Repr, DecidableEq

/-- The consolidated event data passed to `_processAndQueueEvent`
(src/index.js lines 272-287 and 314-324). -/
structure EventData where
  siteId : Option String := none
  ip : Option String := none
  userAgent : Option String := none
  headers : Option Headers := none
  path : String := ""
  etype : EvType := .pageView
  name : Option String := none
  referrer : Option String := none
  language : Option String := none
  customDuration : Option Int := none
  customDataPresent : Bool := false
  customDataNonempty : Bool := false
  errorMessage : Option String := none
  stackTrace : Option String := none
  url : Option String := none
  deriving Repr, DecidableEq

/-- The truthy duration signal `customData?.duration && customData.duration > 10`
(src/index.js lines 885 and 927). -/
def durationSignal : Option Int → Bool
  | some d => d > 10
  | none => false

/-- Renewal of a cached, still-active session (src/index.js lines 880-892):
bump `lastActivity`, increment `eventCount`, and set `isEngaged` the first
time the incremented count reaches 2 or the event carries a duration above
10 seconds. -/
def touchSessionEntry (e : SessionEntry) (now : Nat) (dur : Option Int) : SessionEntry :=
  let e := { e with lastActivity := now, eventCount := e.eventCount + 1 }
  if !e.isEngaged && (e.eventCount ≥ 2 || durationSignal dur) then
    { e with isEngaged := true }
  else e

/-- Model of `_setVisitorCache` (src/index.js lines 758-769): batched
oldest-first eviction past the hard ceiling plus slack, then `Map.set`. -/
def setVisitorCache (st : SdkState) (visitorId : String) (recId : Nat) (now : Nat) :
    SdkState :=
  let cache :=
    if st.visitorCache.length ≥ VISITOR_CACHE_MAX_SIZE + VISITOR_CACHE_CLEANUP_THRESHOLD then
      st.visitorCache.drop (st.visitorCache.length - VISITOR_CACHE_MAX_SIZE + 50)
    else st.visitorCache
  { st with visitorCache := assocSet visitorId ⟨recId, now⟩ cache }

/-- The cache-miss path of `_getOrCreateVisitor` (src/index.js lines 451-491):
look up by fingerprint; on 404 create; on a creation conflict re-read the
now-existing record; propagate any other error. -/
def getOrCreateVisitorMiss (oracle : Nat → StoreReply) (st : SdkState) (ctx : StoreCtx)
    (visitorId : String) (now : Nat) :
    Except StoreErr (Nat × Bool) × SdkState × StoreCtx :=
  let (r1, ctx) := storeCall oracle ctx (.lookupVisitor visitorId)
  match asId r1 with
  | .ok v => (.ok (v, false), setVisitorCache st visitorId v now, ctx)
  | .error .notFound =>
    let (r2, ctx) := storeCall oracle ctx (.createVisitor visitorId)
    match asId r2 with
    | .ok v => (.ok (v, true), setVisitorCache st visitorId v now, ctx)
    | .error .conflict =>
      let (r3, ctx) := storeCall oracle ctx (.lookupVisitor visitorId)
      match asId r3 with
      | .ok v => (.ok (v, false), setVisitorCache st visitorId v now, ctx)
      | .error e => (.error e, st, ctx)
    | .error e => (.error e, st, ctx)
  | .error e => (.error e, st, ctx)

/-- Sequential model of `_getOrCreateVisitor` (src/index.js lines 439-496) for
a single in-flight call: the TTL-checked visitor cache, then the store
round-trips of the registered creation operation. (The in-flight lock map,
which only matters for overlapping calls, is modelled separately by the
small-step system below.) -/
def getOrCreateVisitor (oracle : Nat → StoreReply) (st : SdkState) (ctx : StoreCtx)
    (visitorId : String) (now : Nat) :
    Except StoreErr (Nat × Bool) × SdkState × StoreCtx :=
  match assocGet visitorId st.visitorCache with
  | some c =>
    if now - c.cachedAt < VISITOR_CACHE_TTL_MS then (.ok (c.id, false), st, ctx)
    else getOrCreateVisitorMiss oracle st ctx visitorId now
  | none => getOrCreateVisitorMiss oracle st ctx visitorId now

/-- The outgoing event record built at src/index.js lines 981-994: an event
name only for non-pageView events with a truthy name, event data only when
`customData` is truthy and has at least one enumerable key. -/
def mkEventPayload (d : EventData) (sessionId : Nat) : EventPayload :=
  { session := sessionId
    etype := d.etype
    path := d.path
    eventName := if d.etype ≠ .pageView && optTruthy d.name then d.name else none
    hasEventData := d.customDataPresent && d.customDataNonempty }

/-- Queue-side model of `flushEvents` (src/index.js lines 552-568): an empty
queue is left alone, otherwise the whole queue is drained atomically
(swap-and-clear) and every drained event is sent. Returns the new queue and
the drained events. -/
def flushEventsModel (queue : List EventPayload) : List EventPayload × List EventPayload :=
  if queue = [] then ([], []) else ([], queue)

/-- Model of the batching branch of `_processAndQueueEvent`
(src/index.js lines 996-1005): push, then flush once if the queue has reached
the configured batch size, else flush once if it has reached the hard safety
ceiling EVENT_QUEUE_MAX_SIZE. Returns the new queue, the number of flush
attempts triggered by this enqueue, and the events sent by that flush. -/
def enqueueEventModel (maxBatchSize : Nat) (queue : List EventPayload) (p : EventPayload) :
    List EventPayload × Nat × List EventPayload :=
  let q := queue ++ [p]
  if q.length ≥ maxBatchSize then
    let (q', sent) := flushEventsModel q
    (q', 1, sent)
  else if q.length ≥ EVENT_QUEUE_MAX_SIZE then
    let (q', sent) := flushEventsModel q
    (q', 1, sent)
  else (q, 0, [])

/-- Issue the store create for each flushed event in order (`_sendEvent`,
src/index.js lines 1019-1027; failures are caught and logged there). -/
def sendEvents (oracle : Nat → StoreReply) : List EventPayload → StoreCtx → StoreCtx
  | [], ctx => ctx
  | p :: rest, ctx =>
    sendEvents oracle rest (storeCall oracle ctx (.createEvent p.session)).2

/-- Per-entry store calls of `_flushJsErrors` (src/index.js lines 684-713):
look up the persisted record by hash and either increment its counter
(`count+`) or create it on 404; every per-entry error is caught. -/
def flushErrFold (oracle : Nat → StoreReply) : List (String × ErrEntry) → StoreCtx → StoreCtx
  | [], ctx => ctx
  | ke :: rest, ctx =>
    let (r, ctx) := storeCall oracle ctx (.lookupError ke.1)
    let ctx :=
      match asId r with
      | .ok recId => (storeCall oracle ctx (.updateErrorCount recId ke.2.count)).2
      | .error .notFound => (storeCall oracle ctx (.createError ke.1 ke.2.count)).2
      | .error _ => ctx
    flushErrFold oracle rest ctx

/-- Store calls of `_flushJsErrors` (src/index.js lines 669-717): an empty
queue is left alone, otherwise snapshot and clear the queue and emit the
per-entry calls. -/
def flushJsErrorsCalls (oracle : Nat → StoreReply) (st : SdkState) (ctx : StoreCtx) :
    SdkState × StoreCtx :=
  if st.jsErrorQueue = [] then (st, ctx)
  else ({ st with jsErrorQueue := [] }, flushErrFold oracle st.jsErrorQueue ctx)

/-- The tail of `_processAndQueueEvent` once a session id is known
(src/index.js lines 949-1010): either queue/merge a JS error report (forcing
an error flush first when the error queue is at its ceiling), or build the
event record and batch or send it. This part never rejects. -/
def afterSession (env : Env) (oracle : Nat → StoreReply) (st : SdkState) (ctx : StoreCtx)
    (d : EventData) (sessionId : Nat) : SdkState × StoreCtx :=
  match d.etype with
  | .jsError =>
    let safeUrl :=
      if optTruthy d.url then
        match env.urlHref (optStr d.url) with
        | some href => href
        | none => optStr d.url
      else ""
    let key := errIdentifier d.errorMessage d.stackTrace
    match assocGet key st.jsErrorQueue with
    | some e =>
      ({ st with jsErrorQueue := assocSet key { e with count := e.count + 1 } st.jsErrorQueue },
       ctx)
    | none =>
      let fl :=
        if st.jsErrorQueue.length ≥ JS_ERROR_QUEUE_MAX_SIZE then
          flushJsErrorsCalls oracle st ctx
        else (st, ctx)
      let entry : ErrEntry :=
        { sessionId := sessionId
          errorMessage := d.errorMessage
          stackTrace := d.stackTrace.map (·.take 2048)
          url := safeUrl
          count := 1 }
      ({ fl.1 with jsErrorQueue := assocSet key entry fl.1.jsErrorQueue }, fl.2)
  | _ =>
    let payload := mkEventPayload d sessionId
    if st.batchingEnabled then
      let tr := enqueueEventModel st.maxBatchSize st.eventQueue payload
      ({ st with eventQueue := tr.1 }, sendEvents oracle tr.2.2 ctx)
    else
      (st, (storeCall oracle ctx (.createEvent payload.session)).2)

/-- The session-creation path of `_processAndQueueEvent`
(src/index.js lines 895-947): resolve the visitor (an error here is NOT
caught and rejects the whole call), create the session record, cache
`{sessionId, lastActivity := now, eventCount := 1, isEngaged := duration
above 10}`, then continue; a session-creation error is caught and aborts with
a log and an early return. -/
def createSessionPath (env : Env) (oracle : Nat → StoreReply) (st : SdkState) (ctx : StoreCtx)
    (d : EventData) (now : Nat) (visitorId : String) :
    Except StoreErr SdkState × StoreCtx :=
  match getOrCreateVisitor oracle st ctx visitorId now with
  | (.error e, _, ctx) => (.error e, ctx)
  | (.ok (visitorRecId, _isNewVisitor), st, ctx) =>
    let sessionIsEngaged := durationSignal d.customDuration
    let (r, ctx) := storeCall oracle ctx (.createSession visitorRecId)
    match asId r with
    | .ok sessionId =>
      let st := { st with sessionCache := assocSet visitorId ⟨sessionId, now, 1, sessionIsEngaged⟩ st.sessionCache }
      let r := afterSession env oracle st ctx d sessionId
      (.ok r.1, r.2)
    | .error _ => (.ok st, ctx)

/-- The post-gate body of `_processAndQueueEvent` (src/index.js lines
849-1010): fingerprint, session renewal or creation, then the event/error
tail. `_ensureAdminAuth` catches all of its own errors and only touches the
auth store, and `_getGeoLocation` catches all of its own errors and only
feeds the country/state fields of the opaque session payload, so neither is
observable here. -/
def processEventCore (env : Env) (oracle : Nat → StoreReply) (st : SdkState)
    (d : EventData) (now : Nat) : Except StoreErr SdkState × StoreCtx :=
  let ctx := StoreCtx.init
  let visitorId := generateVisitorId st.siteId d.ip d.userAgent
  match assocGet visitorId st.sessionCache with
  | some cs =>
    if now - cs.lastActivity < st.sessionTimeout then
      let (r, ctx) := storeCall oracle ctx (.updateSessionExit cs.sessionId d.path)
      match asUnit r with
      | .ok _ =>
        let cs' := touchSessionEntry cs now d.customDuration
        let st := { st with sessionCache := assocSet visitorId cs' st.sessionCache }
        let r := afterSession env oracle st ctx d cs'.sessionId
        (.ok r.1, r.2)
      | .error .notFound =>
        let st := { st with sessionCache := assocDelete visitorId st.sessionCache }
        createSessionPath env oracle st ctx d now visitorId
      | .error _ =>
        createSessionPath env oracle st ctx d now visitorId
    else createSessionPath env oracle st ctx d now visitorId
  | none => createSessionPath env oracle st ctx d now visitorId

/-- Model of `_processAndQueueEvent` (src/index.js lines 811-1010). The four
early-return gates (archived site, blacklisted IP, localhost with localhost
tracking disabled, bot) leave the state untouched and issue no store call;
afterwards the core pipeline runs. The site id used for the fingerprint is
`st.siteId` (both callers pass `this.siteId`, or an override modelled by
setting that field). -/
def processAndQueueEvent (env : Env) (oracle : Nat → StoreReply) (st : SdkState)
    (d : EventData) (now : Nat) : Except StoreErr SdkState × StoreCtx :=
  if st.isArchived then (.ok st, StoreCtx.init)
  else if optTruthy d.ip && st.ipBlacklist.contains (optStr d.ip) then
    (.ok st, StoreCtx.init)
  else if st.disableLocalhostTracking && optTruthy d.ip &&
      env.ipIsLoopback (optStr d.ip) = some true then
    (.ok st, StoreCtx.init)
  else if detectBot env d.userAgent d.headers then (.ok st, StoreCtx.init)
  else processEventCore env oracle st d now

/-- The domain stripped of one leading "www." (src/index.js line 242:
`this.domain.replace(WWW_PREFIX_PATTERN, "")` with pattern `^www\.`). -/
def stripWww (domain : String) : String :=
  if jsStartsWith domain "www." then domain.drop 4 else domain

/-- Model of `trackApiEvent` (src/index.js lines 230-288): sanitize the
payload (dropping it on rejection), enforce the configured site domain on the
payload URL hostname (exact match after www-stripping, or a dot-separated
subdomain; a URL that fails to parse is also dropped), extract the path, and
hand off to `_processAndQueueEvent`. -/
def trackApiEvent (env : Env) (oracle : Nat → StoreReply) (st : SdkState)
    (payload : ApiPayload) (reqIp reqUserAgent : Option String)
    (reqHeaders : Option Headers) (now : Nat) : Except StoreErr SdkState × StoreCtx :=
  match env.sanitize payload with
  | none => (.ok st, StoreCtx.init)
  | some sp =>
    let domainOk :=
      match st.domain with
      | none => true
      | some dom =>
        match env.urlHostname sp.url with
        | none => false
        | some host =>
          let siteDomain := stripWww dom
          host = siteDomain || jsEndsWith host ("." ++ siteDomain)
    if !domainOk then (.ok st, StoreCtx.init)
    else
      let path :=
        if sp.url ≠ "" then
          match env.urlPathname sp.url with
          | some p => p
          | none => sp.url
        else ""
      let etype : EvType :=
        if sp.ptype = "custom" then .custom
        else if sp.ptype = "jsError" then .jsError
        else .pageView
      processAndQueueEvent env oracle st
        { siteId := st.siteId
          ip := reqIp
          userAgent := reqUserAgent
          headers := reqHeaders
          path := path
          etype := etype
          name := sp.name
          referrer := sp.referrer
          language := sp.language
          customDuration := sp.customDuration
          customDataPresent := sp.customDataPresent
          customDataNonempty := sp.customDataNonempty
          errorMessage := sp.errorMessage
          stackTrace := sp.stackTrace
          url := none } now

/-! Error-aggregation model for the dedup claim: the queue logic of the
jsError branch (src/index.js lines 949-979) together with the store-side
meaning of `_flushJsErrors` (src/index.js lines 684-713) against a healthy
store, where the persisted collection is a map from error hash to counter. -/

/-- An accepted jsError report: its sanitized message and optional stack. -/
structure ErrReport where
  msg : String
  stack : Option String
  deriving Repr, DecidableEq

/-- The dedup key of a report (src/index.js lines 958-959). -/
def errKey (r : ErrReport) : String :=
  errIdentifier (some r.msg) r.stack

/-- Store-side effect of `_flushJsErrors` on the persisted error records:
for each queued hash in order, increment the existing record's counter
(`count+`) or create the record with the queued count. -/
def flushErrorsInto : List (String × Nat) → List (String × ErrEntry) → List (String × Nat)
  | store, [] => store
  | store, ke :: rest =>
    match assocGet ke.1 store with
    | some c => flushErrorsInto (assocSet ke.1 (c + ke.2.count) store) rest
    | none => flushErrorsInto (assocSet ke.1 ke.2.count store) rest

/-- Processing one jsError report (src/index.js lines 960-976): merge into an
existing queue entry by incrementing its count, otherwise insert with count 1,
forcing a full flush to the store first when the queue is at its ceiling. -/
def recordErrorReport (sq : List (String × Nat) × List (String × ErrEntry))
    (r : ErrReport) : List (String × Nat) × List (String × ErrEntry) :=
  let key := errKey r
  match assocGet key sq.2 with
  | some e => (sq.1, assocSet key { e with count := e.count + 1 } sq.2)
  | none =>
    let fl :=
      if sq.2.length ≥ JS_ERROR_QUEUE_MAX_SIZE then (flushErrorsInto sq.1 sq.2, [])
      else (sq.1, sq.2)
    (fl.1, assocSet key ⟨0, some r.msg, r.stack, "", 1⟩ fl.2)

/-- Process a stream of accepted jsError reports from an empty store and
queue. -/
def processErrorReports (rs : List ErrReport) : List (String × Nat) × List (String × ErrEntry) :=
  rs.foldl recordErrorReport ([], [])

/-- The persisted error records after processing the reports and a final
flush. -/
def persistedErrors (rs : List ErrReport) : List (String × Nat) :=
  let sq := processErrorReports rs
  flushErrorsInto sq.1 sq.2

/-- Total measure of the values stored at a key of an association list
(robust to hypothetical duplicate keys). -/
def sumAt {β : Type} (f : β → Nat) (k : String) (l : List (String × β)) : Nat :=
  (l.map (fun p => if p.1 = k then f p.2 else 0)).sum

/-- The counter carried by a queue entry. -/
def entryCount (e : ErrEntry) : Nat := e.count

/-- Total persisted count at a key. -/
def sCount (k : String) (store : List (String × Nat)) : Nat :=
  sumAt id k store

/-- Total queued count at a key. -/
def qCount (k : String) (q : List (String × ErrEntry)) : Nat :=
  sumAt entryCount k q

/-- Total in-flight count (persisted plus queued) at a key. -/
def errCount (sq : List (String × Nat) × List (String × ErrEntry)) (k : String) : Nat :=
  sCount k sq.1 + qCount k sq.2

/-- Number of reports in the stream whose dedup key is k. -/
def reportCount (k : String) (rs : List ErrReport) : Nat :=
  (rs.filter (fun r => errKey r = k)).length

/-- The keys of an association list. -/
def assocKeys {β : Type} (l : List (String × β)) : List String :=
  l.map Prod.fst

/-! Small-step model of concurrent `_getOrCreateVisitor` calls for one fixed
fingerprint (src/index.js lines 439-496). JavaScript interleaves asynchronous
calls only at await boundaries, so each atomic step below is one maximal
synchronous block of the source:
- a call checks the visitor cache, then the in-flight lock map, and — when it
  becomes the leader — registers the shared promise in the lock map, all
  before its first suspension point;
- the leader then looks up the fingerprint, creates the record on 404
  (re-reading it instead on a duplicate-key conflict), caches it and resolves
  the shared promise;
- joiners resume once the shared promise has settled;
- the lock-map entry is removed on a scheduling tick after settlement. -/

inductive CallerPhase where
  | start
  | awaitingPromise
  | leaderLookup
  | leaderCreate
  | done (visitorRecId : Nat) (isNewVisitor : Bool)
  deriving Repr, DecidableEq

/-- System state for one fingerprint: the lock-map entry, the settled value of
the shared in-flight promise, the external store's record for the
fingerprint, a fresh-id source, the number of create calls issued to the
store, the visitor cache entry, and the per-caller phases. -/
structure ConcState where
  lock : Bool
  promiseResult : Option (Nat × Bool)
  storeVisitor : Option Nat
  nextId : Nat
  createCalls : Nat
  cache : Option Nat
  callers : List CallerPhase
  deriving Repr, DecidableEq

/-- Initial state: no lock, empty cache, no record in the external store, n
callers about to invoke `_getOrCreateVisitor`. -/
def initConc (n : Nat) : ConcState :=
  { lock := false
    promiseResult := none
    storeVisitor := none
    nextId := 1
    createCalls := 0
    cache := none
    callers := List.replicate n .start }

/-- One interleaving step of the concurrent system. -/
inductive ConcStep : ConcState → ConcState → Prop where
  | startCached (s : ConcState) (i : Nat) (v : Nat)
      (hc : s.callers.get? i = some .start) (hv : s.cache = some v) :
      ConcStep s { s with callers := s.callers.set i (.done v false) }
  | startJoin (s : ConcState) (i : Nat)
      (hc : s.callers.get? i = some .start) (hv : s.cache = none)
      (hl : s.lock = true) :
      ConcStep s { s with callers := s.callers.set i .awaitingPromise }
  | startLead (s : ConcState) (i : Nat)
      (hc : s.callers.get? i = some .start) (hv : s.cache = none)
      (hl : s.lock = false) :
      ConcStep s { s with lock := true, callers := s.callers.set i .leaderLookup }
  | lookupFound (s : ConcState) (i : Nat) (v : Nat)
      (hc : s.callers.get? i = some .leaderLookup) (hv : s.storeVisitor = some v) :
      ConcStep s { s with cache := some v, promiseResult := some (v, false), callers := s.callers.set i (.done v false) }
  | lookupMiss (s : ConcState) (i : Nat)
      (hc : s.callers.get? i = some .leaderLookup) (hv : s.storeVisitor = none) :
      ConcStep s { s with callers := s.callers.set i .leaderCreate }
  | createOk (s : ConcState) (i : Nat)
      (hc : s.callers.get? i = some .leaderCreate) (hv : s.storeVisitor = none) :
      ConcStep s { s with storeVisitor := some s.nextId, nextId := s.nextId + 1, createCalls := s.createCalls + 1, cache := some s.nextId, promiseResult := some (s.nextId, true), callers := s.callers.set i (.done s.nextId true) }
  | createConflict (s : ConcState) (i : Nat) (v : Nat)
      (hc : s.callers.get? i = some .leaderCreate) (hv : s.storeVisitor = some v) :
      ConcStep s { s with createCalls := s.createCalls + 1, cache := some v, promiseResult := some (v, false), callers := s.callers.set i (.done v false) }
  | waiterResume (s : ConcState) (i : Nat) (v : Nat) (b : Bool)
      (hc : s.callers.get? i = some .awaitingPromise)
      (hp : s.promiseResult = some (v, b)) :
      ConcStep s { s with callers := s.callers.set i (.done v b) }
  | cleanupLock (s : ConcState) (v : Nat) (b : Bool)
      (hp : s.promiseResult = some (v, b)) (hl : s.lock = true) :
      ConcStep s { s with lock := false }

/-- Reachability under interleaving. -/
def ConcReach : ConcState → ConcState → Prop :=
  Relation.ReflTransGen ConcStep

/-- A benign environment: no external library flags any input. -/
def testEnv : Env :=
  { isbotO := fun _ => false
    botPatternsO := fun _ => false
    uaParse := fun _ => { browserName := some "Chrome", osName := some "Windows" }
    ipIsLoopback := fun _ => some false
    urlHostname := fun _ => some "example.com"
    urlPathname := fun _ => some "/page"
    urlHref := fun s => some s
    sanitize := fun p => some p }

/-- Ordinary browser-like headers that keep the bot score at 0. -/
def testHeaders : Headers :=
  { accept := some "text/html"
    acceptLanguage := some "en"
    acceptEncoding := some "gzip"
    secFetchSite := some "same-origin" }

/-- An ordinary event from an ordinary browser. -/
def testEvent : EventData :=
  { siteId := some "site1"
    ip := some "1.2.3.4"
    userAgent := some "Mozilla/5.0 Test"
    headers := some testHeaders
    path := "/p" }

/-- SDK state for the claim C4 witness: a cached session with lastActivity
100 under a 1000 ms timeout, and a fresh visitor cache entry. -/
def testStateC4 : SdkState :=
  { siteId := some "site1"
    sessionTimeout := 1000
    sessionCache := [("site1-1.2.3.4-Mozilla/5.0 Test", ⟨42, 100, 1, false⟩)]
    visitorCache := [("site1-1.2.3.4-Mozilla/5.0 Test", ⟨7, 0⟩)] }

/-- All persisted counters are positive. -/
def storePos (store : List (String × Nat)) : Prop := ∀ p ∈ store, 1 ≤ p.2

/-- All queued counters are positive. -/
def qPos (q : List (String × ErrEntry)) : Prop := ∀ p ∈ q, 1 ≤ p.2.count

/-- The caller at index i holds the in-flight lock (is executing the
registered creation operation). -/
def leaderAtL (l : List CallerPhase) (i : Nat) : Prop :=
  l.get? i = some .leaderLookup ∨ l.get? i = some .leaderCreate

/-- The inductive invariant of the concurrent system, for an initially empty
external store: the number of create calls tracks whether the store holds the
record; the cache, the settled promise and every finished caller agree with
the store; and the in-flight lock protocol admits at most one leader, none
once the promise has settled or the lock is free, with a leader about to
create only when the store is still empty. -/
structure ConcInv (n : Nat) (s : ConcState) : Prop where
  len : s.callers.length = n
  createNone : s.storeVisitor = none → s.createCalls = 0
  createOne : ∀ v, s.storeVisitor = some v → s.createCalls = 1
  cachePin : ∀ v, s.cache = some v → s.storeVisitor = some v
  promisePin : ∀ v b, s.promiseResult = some (v, b) →
    s.storeVisitor = some v ∧ s.cache = some v
  donePin : ∀ i v b, s.callers.get? i = some (.done v b) → s.storeVisitor = some v
  leaderUnique : ∀ i j, leaderAtL s.callers i → leaderAtL s.callers j → i = j
  leaderLock : s.lock = false → ∀ i, ¬ leaderAtL s.callers i
  leaderSettled : s.promiseResult.isSome → ∀ i, ¬ leaderAtL s.callers i
  createStore : ∀ i, s.callers.get? i = some .leaderCreate → s.storeVisitor = none

/-- Intermediate states of the witness interleaving: two concurrent callers,
the first becomes leader, the second joins the in-flight promise, the leader
misses the lookup, creates the record and resolves, the joiner resumes. -/
def concW1 : ConcState :=
  { lock := true, promiseResult := none, storeVisitor := none, nextId := 1,
    createCalls := 0, cache := none, callers := [.leaderLookup, .start] }

def concW2 : ConcState :=
  { lock := true, promiseResult := none, storeVisitor := none, nextId := 1,
    createCalls := 0, cache := none, callers := [.leaderLookup, .awaitingPromise] }

def concW3 : ConcState :=
  { lock := true, promiseResult := none, storeVisitor := none, nextId := 1,
    createCalls := 0, cache := none, callers := [.leaderCreate, .awaitingPromise] }

def concW4 : ConcState :=
  { lock := true, promiseResult := some (1, true), storeVisitor := some 1, nextId := 2,
    createCalls := 1, cache := some 1, callers := [.done 1 true, .awaitingPromise] }

def concW5 : ConcState :=
  { lock := true, promiseResult := some (1, true), storeVisitor := some 1, nextId := 2,
    createCalls := 1, cache := some 1, callers := [.done 1 true, .done 1 true] }

/-! Generic association-list lemmas. -/

theorem assocGet_assocSet_self {β : Type} (k : String) (v : β) (l : List (String × β)) :
    assocGet k (assocSet k v l) = some v := by
  induction l with
  | nil => simp [assocSet, assocGet]
  | cons hd tl ih =>
    by_cases h : hd.1 = k
    · simp [assocSet, assocGet, h]
    · simp [assocSet, assocGet, h, ih]

theorem assocGet_assocSet_other {β : Type} (k k' : String) (v : β) (l : List (String × β))
    (h : k' ≠ k) : assocGet k (assocSet k' v l) = assocGet k l := by
  induction l with
  | nil => simp [assocSet, assocGet, h]
  | cons hd tl ih =>
    by_cases h1 : hd.1 = k'
    · simp [assocSet, assocGet, h1, h]
    · simp only [assocSet, assocGet, if_neg h1]
      by_cases h2 : hd.1 = k <;> simp [h2, ih]

theorem assocSet_of_get_none {β : Type} (k : String) (v : β) (l : List (String × β))
    (h : assocGet k l = none) : assocSet k v l = l ++ [(k, v)] := by
  induction l with
  | nil => simp [assocSet]
  | cons hd tl ih =>
    simp only [assocGet] at h
    by_cases h1 : hd.1 = k
    · simp [h1] at h
    · simp only [assocSet, if_neg h1, List.cons_append]
      rw [if_neg h1] at h
      simp [ih h]

theorem mem_assocSet {β : Type} {k : String} {v : β} {l : List (String × β)}
    {p : String × β} (h : p ∈ assocSet k v l) : p = (k, v) ∨ p ∈ l := by
  induction l with
  | nil => simpa [assocSet] using h
  | cons hd tl ih =>
    simp only [assocSet] at h
    by_cases h1 : hd.1 = k
    · rw [if_pos h1] at h
      rcases List.mem_cons.1 h with h2 | h2
      · exact Or.inl h2
      · exact Or.inr (List.mem_cons_of_mem _ h2)
    · rw [if_neg h1] at h
      rcases List.mem_cons.1 h with h2 | h2
      · exact Or.inr (h2 ▸ List.mem_cons_self _ _)
      · rcases ih h2 with h3 | h3
        · exact Or.inl h3
        · exact Or.inr (List.mem_cons_of_mem _ h3)

/-- List.set at the written index. -/
theorem listGet_set_self {α : Type} (l : List α) (i : Nat) (a : α) (h : i < l.length) :
    (l.set i a).get? i = some a := by
  induction l generalizing i with
  | nil => simp at h
  | cons x xs ih =>
    cases i with
    | zero => rfl
    | succ n => simpa using ih n (by simpa using h)

/-- List.set away from the written index. -/
theorem listGet_set_other {α : Type} (l : List α) (i j : Nat) (a : α) (h : i ≠ j) :
    (l.set i a).get? j = l.get? j := by
  induction l generalizing i j with
  | nil => simp
  | cons x xs ih =>
    cases i with
    | zero =>
      cases j with
      | zero => exact absurd rfl h
      | succ m => rfl
    | succ n =>
      cases j with
      | zero => rfl
      | succ m => simpa using ih n m (fun hh => h (by simp [hh]))

theorem listGet_some_lt {α : Type} {l : List α} {i : Nat} {a : α}
    (h : l.get? i = some a) : i < l.length := by
  induction l generalizing i with
  | nil => simp [List.get?] at h
  | cons x xs ih =>
    cases i with
    | zero => simp
    | succ n => simpa using ih (by simpa using h)

/-! Structural lemmas about the pipeline tail: it only appends to the call
log and never touches the session cache. -/

theorem sendEvents_log_extend (oracle : Nat → StoreReply) (ps : List EventPayload) :
    ∀ ctx : StoreCtx, ∃ t, (sendEvents oracle ps ctx).log = ctx.log ++ t := by
  induction ps with
  | nil => intro ctx; exact ⟨[], by simp [sendEvents]⟩
  | cons p rest ih =>
    intro ctx
    obtain ⟨t, ht⟩ := ih (storeCall oracle ctx (.createEvent p.session)).2
    refine ⟨[.createEvent p.session] ++ t, ?_⟩
    simp only [sendEvents]
    rw [ht]
    simp [storeCall]

theorem flushErrFold_log_extend (oracle : Nat → StoreReply) (es : List (String × ErrEntry)) :
    ∀ ctx : StoreCtx, ∃ t, (flushErrFold oracle es ctx).log = ctx.log ++ t := by
  induction es with
  | nil => intro ctx; exact ⟨[], by simp [flushErrFold]⟩
  | cons ke rest ih =>
    intro ctx
    rcases hrep : oracle ctx.idx with n | _ | _ | _ | _ <;>
      · simp only [flushErrFold, storeCall, hrep, asId]
        first
        | (obtain ⟨t, ht⟩ := ih ⟨ctx.idx + 1 + 1, (ctx.log ++ [.lookupError ke.1]) ++ [.updateErrorCount n ke.2.count]⟩
           exact ⟨[.lookupError ke.1, .updateErrorCount n ke.2.count] ++ t, by rw [ht]; simp⟩)
        | (obtain ⟨t, ht⟩ := ih ⟨ctx.idx + 1 + 1, (ctx.log ++ [.lookupError ke.1]) ++ [.createError ke.1 ke.2.count]⟩
           exact ⟨[.lookupError ke.1, .createError ke.1 ke.2.count] ++ t, by rw [ht]; simp⟩)
        | (obtain ⟨t, ht⟩ := ih ⟨ctx.idx + 1, ctx.log ++ [.lookupError ke.1]⟩
           exact ⟨[.lookupError ke.1] ++ t, by rw [ht]; simp⟩)

theorem flushJsErrorsCalls_log_extend (oracle : Nat → StoreReply) (st : SdkState)
    (ctx : StoreCtx) : ∃ t, (flushJsErrorsCalls oracle st ctx).2.log = ctx.log ++ t := by
  unfold flushJsErrorsCalls
  split
  · exact ⟨[], by simp⟩
  · exact flushErrFold_log_extend oracle st.jsErrorQueue ctx

theorem flushJsErrorsCalls_fst_sessionCache (oracle : Nat → StoreReply) (st : SdkState)
    (ctx : StoreCtx) :
    (flushJsErrorsCalls oracle st ctx).1.sessionCache = st.sessionCache := by
  unfold flushJsErrorsCalls
  split <;> simp

theorem afterSession_fst_sessionCache (env : Env) (oracle : Nat → StoreReply) (st : SdkState)
    (ctx : StoreCtx) (d : EventData) (sid : Nat) :
    (afterSession env oracle st ctx d sid).1.sessionCache = st.sessionCache := by
  unfold afterSession
  rcases hty : d.etype <;> simp only
  case pageView => split <;> simp
  case custom => split <;> simp
  case jsError =>
    split
    · simp
    · split
      · simp [flushJsErrorsCalls_fst_sessionCache]
      · simp

theorem afterSession_log_extend (env : Env) (oracle : Nat → StoreReply) (st : SdkState)
    (ctx : StoreCtx) (d : EventData) (sid : Nat) :
    ∃ t, (afterSession env oracle st ctx d sid).2.log = ctx.log ++ t := by
  unfold afterSession
  rcases hty : d.etype <;> simp only
  case pageView =>
    split
    · exact sendEvents_log_extend oracle _ ctx
    · exact ⟨[.createEvent (mkEventPayload d sid).session], by simp [storeCall]⟩
  case custom =>
    split
    · exact sendEvents_log_extend oracle _ ctx
    · exact ⟨[.createEvent (mkEventPayload d sid).session], by simp [storeCall]⟩
  case jsError =>
    split
    · exact ⟨[], by simp⟩
    · split
      · obtain ⟨t, ht⟩ := flushJsErrorsCalls_log_extend oracle st ctx
        exact ⟨t, by simpa using ht⟩
      · exact ⟨[], by simp⟩

/-- A session renewal keeps the session id, moves lastActivity to now, and
increments the event count. -/
theorem touchSessionEntry_fields (e : SessionEntry) (now : Nat) (dur : Option Int) :
    (touchSessionEntry e now dur).sessionId = e.sessionId ∧
    (touchSessionEntry e now dur).lastActivity = now ∧
    (touchSessionEntry e now dur).eventCount = e.eventCount + 1 := by
  simp only [touchSessionEntry]
  split <;> simp

/-- The pipeline tail only appends to the call log, so the first call of a
nonempty log survives it. -/
theorem afterSession_log_head (env : Env) (oracle : Nat → StoreReply) (st : SdkState)
    (ctx : StoreCtx) (d : EventData) (sid : Nat) (c : StoreCall) (rest : List StoreCall)
    (h : ctx.log = c :: rest) :
    (afterSession env oracle st ctx d sid).2.log.head? = some c := by
  obtain ⟨t, ht⟩ := afterSession_log_extend env oracle st ctx d sid
  rw [ht, h]
  rfl

/-! Concrete environment and inputs used by counterexamples and witnesses. -/




/-- Claim C5. The engaged flag of a session cache entry is computed by
`touchSessionEntry` (src/index.js lines 880-893). First conjunct: one renewal
step sets the flag to (previous flag) OR (incremented event count at least 2)
OR (duration signal above 10) — so it flips to true exactly when one of the
two triggers first holds, and a true flag is reproduced, never cleared.
Second conjunct: across any sequence of renewals, a true flag stays true, so
the false-to-true transition happens at most once per entry. -/
theorem claim_C5_engagement_monotone :
    (∀ (e : SessionEntry) (now : Nat) (dur : Option Int),
      (touchSessionEntry e now dur).isEngaged =
        (e.isEngaged || (decide (2 ≤ e.eventCount + 1) || durationSignal dur)))
    ∧ (∀ (ops : List (Nat × Option Int)) (e : SessionEntry), e.isEngaged = true →
      (ops.foldl (fun a pr => touchSessionEntry a pr.1 pr.2) e).isEngaged = true) := by
  have hstep : ∀ (e : SessionEntry) (now : Nat) (dur : Option Int),
      (touchSessionEntry e now dur).isEngaged =
        (e.isEngaged || (decide (2 ≤ e.eventCount + 1) || durationSignal dur)) := by
    intro e now dur
    rcases e with ⟨sid, la, ec, eng⟩
    cases eng
    · simp only [touchSessionEntry]
      split <;> simp_all
    · simp only [touchSessionEntry]
      split <;> simp_all
  refine ⟨hstep, ?_⟩
  intro ops
  induction ops with
  | nil => intro e he; simpa using he
  | cons op rest ih =>
    intro e he
    simp only [List.foldl_cons]
    exact ih _ (by rw [hstep]; simp [he])

/-- Witness for claim C5 at concrete inputs: a second event flips the flag,
and a sequence of renewals keeps a true flag true. -/
theorem claim_C5_engagement_monotone_witness :
    (touchSessionEntry ⟨7, 0, 1, false⟩ 5 none).isEngaged =
      (false || (decide (2 ≤ 1 + 1) || durationSignal none))
    ∧ ([(5, none), (9, some 3)].foldl
        (fun a pr => touchSessionEntry a pr.1 pr.2) ⟨7, 0, 1, true⟩).isEngaged = true :=
  ⟨claim_C5_engagement_monotone.1 ⟨7, 0, 1, false⟩ 5 none,
   claim_C5_engagement_monotone.2 [(5, none), (9, some 3)] ⟨7, 0, 1, true⟩ rfl⟩

/-- Claim C7. The batching branch (src/index.js lines 996-1005 with
`flushEvents`, lines 552-568) is `enqueueEventModel`. First conjunct: an
enqueue that brings the queue length exactly to the configured max batch size
triggers exactly one flush attempt, which drains the whole queue (everything
queued, including the new event, is handed to the flush). Second conjunct:
an enqueue that reaches the hard safety ceiling EVENT_QUEUE_MAX_SIZE = 500
also triggers exactly one flush and empties the queue, with no timer
involved. Third conjunct: from any queue below the ceiling, the queue after
an enqueue stays below the ceiling, so the stored queue length never exceeds
500. -/
theorem claim_C7_batch_backpressure (maxB : Nat) (q : List EventPayload) (p : EventPayload) :
    (q.length + 1 = maxB →
      (enqueueEventModel maxB q p).2.1 = 1 ∧ (enqueueEventModel maxB q p).1 = [] ∧
        (enqueueEventModel maxB q p).2.2 = q ++ [p])
    ∧ (q.length + 1 ≥ EVENT_QUEUE_MAX_SIZE →
      (enqueueEventModel maxB q p).2.1 = 1 ∧ (enqueueEventModel maxB q p).1 = [])
    ∧ (q.length < EVENT_QUEUE_MAX_SIZE →
      (enqueueEventModel maxB q p).1.length < EVENT_QUEUE_MAX_SIZE) := by
  have hne : q ++ [p] ≠ [] := by simp
  refine ⟨?_, ?_, ?_⟩
  · intro h
    simp only [enqueueEventModel]
    rw [if_pos (by simp; omega)]
    simp [flushEventsModel, hne]
  · intro h
    simp only [enqueueEventModel]
    split
    · simp [flushEventsModel, hne]
    · rw [if_pos (by simp [EVENT_QUEUE_MAX_SIZE] at h ⊢; omega)]
      simp [flushEventsModel, hne]
  · intro h
    simp only [enqueueEventModel]
    split
    · simp [flushEventsModel, hne, EVENT_QUEUE_MAX_SIZE]
    · split
      · simp [flushEventsModel, hne, EVENT_QUEUE_MAX_SIZE]
      · rename_i hceil
        simp [EVENT_QUEUE_MAX_SIZE] at hceil ⊢
        omega

/-- Witness for claim C7 at concrete inputs: with max batch size 2 and one
queued event, the enqueue reaching size 2 flushes once and drains both
events, an enqueue reaching the ceiling flushes, and the queue stays below
the ceiling. -/
theorem claim_C7_batch_backpressure_witness :
    ((enqueueEventModel 2 [⟨1, .pageView, "/a", none, false⟩] ⟨1, .pageView, "/b", none, false⟩).2.1 = 1 ∧
      (enqueueEventModel 2 [⟨1, .pageView, "/a", none, false⟩] ⟨1, .pageView, "/b", none, false⟩).1 = [] ∧
      (enqueueEventModel 2 [⟨1, .pageView, "/a", none, false⟩] ⟨1, .pageView, "/b", none, false⟩).2.2 =
        [⟨1, .pageView, "/a", none, false⟩] ++ [⟨1, .pageView, "/b", none, false⟩])
    ∧ ((enqueueEventModel 2 [⟨1, .pageView, "/a", none, false⟩] ⟨1, .pageView, "/b", none, false⟩).1.length <
        EVENT_QUEUE_MAX_SIZE) :=
  ⟨(claim_C7_batch_backpressure 2 [⟨1, .pageView, "/a", none, false⟩]
      ⟨1, .pageView, "/b", none, false⟩).1 (by decide),
   (claim_C7_batch_backpressure 2 [⟨1, .pageView, "/a", none, false⟩]
      ⟨1, .pageView, "/b", none, false⟩).2.2 (by decide)⟩

/-- Counterexample to claim C9 as stated. A request whose headers carry the
automation header x-selenium but whose user-agent is empty scores 80, not
100: the short/missing user-agent short-circuit at src/modules/utils.js line
69 runs before the automation-header check at line 126, so the score is NOT
100 regardless of the user-agent string. -/
theorem claim_C9_counterexample :
    optTruthy (Headers.xSelenium { xSelenium := some "1" }) = true ∧
    calculateBotScore testEnv (some "") (some { xSelenium := some "1" }) = 80 ∧
    calculateBotScore testEnv (some "") (some { xSelenium := some "1" }) ≠ 100 := by
  refine ⟨rfl, by decide, by decide⟩

/-- Claim C9 as amended. Provided the user-agent does not trigger an earlier
short-circuit of `calculateBotScore` — it is present and at least 10
characters (else the function returns 80 first), not recognized by the
external isbot library (else 100), and not matching BOT_PATTERNS (else 90) —
a request carrying an explicit automation header (x-selenium, x-puppeteer,
x-playwright, x-automated, x-webdriver) or a sec-ch-ua-platform hint
containing "Headless" scores exactly 100, regardless of every other header
and user-agent signal. -/
theorem claim_C9_automation_headers (env : Env) (ua : String) (h : Headers)
    (h1 : env.isbotO ua = false) (h2 : 10 ≤ ua.length) (h3 : env.botPatternsO ua = false)
    (h4 : (optTruthy h.xSelenium || optTruthy h.xPuppeteer || optTruthy h.xPlaywright ||
           optTruthy h.xAutomated || optTruthy h.xWebdriver) = true ∨
          (optTruthy h.secChUaPlatform &&
           containsStr (optStr h.secChUaPlatform) "Headless") = true) :
    calculateBotScore env (some ua) (some h) = 100 := by
  have hne : ua ≠ "" := by
    intro he
    subst he
    simp at h2
  have hlt : ¬ ua.length < 10 := by omega
  have htr : optTruthy (some ua) = true := by simp [optTruthy, hne]
  have c1 : ¬ ((optTruthy (some ua) && env.isbotO ua) = true) := by simp [htr, h1]
  have c2 : ¬ ((!optTruthy (some ua) || decide (ua.length < 10)) = true) := by
    simp [htr, hlt]
  have c3 : ¬ (env.botPatternsO ua = true) := by simp [h3]
  simp only [calculateBotScore, optStr]
  rw [if_neg c1, if_neg c2, if_neg c3]
  rcases h4 with ha | hb
  · rw [if_pos ha]
  · by_cases hauto : (optTruthy h.xSelenium || optTruthy h.xPuppeteer ||
      optTruthy h.xPlaywright || optTruthy h.xAutomated || optTruthy h.xWebdriver) = true
    · rw [if_pos hauto]
    · simp only [optStr] at hb
      rw [if_neg hauto, if_pos hb]

/-- Witness for the amended claim C9: an ordinary long user-agent plus an
x-selenium header scores 100. -/
theorem claim_C9_automation_headers_witness :
    calculateBotScore testEnv (some "Mozilla/5.0 Test") (some { xSelenium := some "1" }) = 100 :=
  claim_C9_automation_headers testEnv "Mozilla/5.0 Test" { xSelenium := some "1" }
    rfl (by decide) rfl (Or.inl (by decide))

/-- Claim C6. When the visitor cache misses, the store lookup reports 404 and
the subsequent create fails with a conflict, `_getOrCreateVisitor`
(src/index.js lines 455-482) re-reads the now-existing record and returns it
with isNewVisitor = false instead of propagating the conflict: the result is
ok, the call sequence is lookup, create, lookup, and the re-read record is
cached. -/
theorem claim_C6_conflict_reread (oracle : Nat → StoreReply) (st : SdkState)
    (visitorId : String) (now rid : Nat)
    (hcache : assocGet visitorId st.visitorCache = none)
    (h0 : oracle 0 = .errNotFound) (h1 : oracle 1 = .errConflict)
    (h2 : oracle 2 = .okId rid) :
    getOrCreateVisitor oracle st StoreCtx.init visitorId now =
      (.ok (rid, false), setVisitorCache st visitorId rid now,
       ⟨3, [.lookupVisitor visitorId, .createVisitor visitorId, .lookupVisitor visitorId]⟩) := by
  simp [getOrCreateVisitor, getOrCreateVisitorMiss, storeCall, StoreCtx.init,
    hcache, h0, h1, h2, asId]

/-- Witness for claim C6 at a concrete scripted store. -/
theorem claim_C6_conflict_reread_witness :
    getOrCreateVisitor
      (fun i => if i = 0 then .errNotFound else if i = 1 then .errConflict else .okId 7)
      { siteId := some "site1" } StoreCtx.init "fp" 50 =
      (.ok (7, false), setVisitorCache { siteId := some "site1" } "fp" 7 50,
       ⟨3, [.lookupVisitor "fp", .createVisitor "fp", .lookupVisitor "fp"]⟩) :=
  claim_C6_conflict_reread _ _ "fp" 50 7 rfl rfl rfl rfl

/-- Claim C10. With a site domain configured, `trackApiEvent`
(src/index.js lines 230-252) silently drops any sanitized payload whose URL
hostname is neither the www-stripped configured domain nor a dot-separated
subdomain of it, and any payload whose URL fails to parse at that check: the
SDK state is unchanged and no store call is issued, so no event, session,
visitor or error record is produced. -/
theorem claim_C10_domain_gate (env : Env) (oracle : Nat → StoreReply) (st : SdkState)
    (p sp : ApiPayload) (ip ua : Option String) (hd : Option Headers) (now : Nat)
    (dom : String)
    (hdom : st.domain = some dom) (hsan : env.sanitize p = some sp)
    (hrej : ∀ host, env.urlHostname sp.url = some host →
      host ≠ stripWww dom ∧ jsEndsWith host ("." ++ stripWww dom) = false) :
    trackApiEvent env oracle st p ip ua hd now = (.ok st, StoreCtx.init) := by
  simp only [trackApiEvent, hsan, hdom]
  rcases hh : env.urlHostname sp.url with _ | host
  · simp
  · obtain ⟨hne, hsuf⟩ := hrej host hh
    simp [hne, hsuf]

/-- Witness for claim C10: with configured domain other.com, a payload whose
URL parses to hostname example.com is dropped with no state change and no
store call. -/
theorem claim_C10_domain_gate_witness :
    trackApiEvent testEnv (fun _ => .okUnit)
      { siteId := some "site1", domain := some "other.com" }
      { url := "https://example.com/page" } (some "1.2.3.4") (some "Mozilla/5.0 Test")
      (some testHeaders) 50 =
      (.ok { siteId := some "site1", domain := some "other.com" }, StoreCtx.init) :=
  claim_C10_domain_gate testEnv _ _ _ { url := "https://example.com/page" }
    (some "1.2.3.4") (some "Mozilla/5.0 Test") (some testHeaders) 50 "other.com"
    rfl rfl (by
      intro host hh
      simp only [testEnv, Option.some.injEq] at hh
      subst hh
      exact ⟨by decide, by decide⟩)

/-- Claim C3. If the site is archived, or the request IP is in the IP
blacklist, or `detectBot` classifies the user agent as a bot, then
`_processAndQueueEvent` (src/index.js lines 811-847) returns early with the
whole SDK state unchanged — no session is created, no visitor is resolved,
no event is queued or sent, no error record is queued — and no store call is
issued. -/
theorem claim_C3_early_gates (env : Env) (oracle : Nat → StoreReply) (st : SdkState)
    (d : EventData) (now : Nat)
    (h : st.isArchived = true ∨
         (optTruthy d.ip && st.ipBlacklist.contains (optStr d.ip)) = true ∨
         detectBot env d.userAgent d.headers = true) :
    processAndQueueEvent env oracle st d now = (.ok st, StoreCtx.init) := by
  unfold processAndQueueEvent
  rcases h with h | h | h
  · simp [h]
  · split
    · rfl
    · simp [h]
  · split
    · rfl
    · split
      · rfl
      · split
        · rfl
        · simp [h]

/-- Witness for claim C3: a user agent flagged by the isbot library is
dropped with no state change and no store call. -/
theorem claim_C3_early_gates_witness :
    processAndQueueEvent { testEnv with isbotO := fun _ => true } (fun _ => .okUnit)
      { siteId := some "site1" } testEvent 50 =
      (.ok { siteId := some "site1" }, StoreCtx.init) :=
  claim_C3_early_gates { testEnv with isbotO := fun _ => true } _ _ testEvent 50
    (Or.inr (Or.inr (by decide)))

/-- When none of the four early-return gates fires, `_processAndQueueEvent`
runs its post-gate body. -/
theorem processAndQueueEvent_open (env : Env) (oracle : Nat → StoreReply) (st : SdkState)
    (d : EventData) (now : Nat)
    (h1 : st.isArchived = false)
    (h2 : (optTruthy d.ip && st.ipBlacklist.contains (optStr d.ip)) = false)
    (h3 : (st.disableLocalhostTracking && optTruthy d.ip &&
      env.ipIsLoopback (optStr d.ip) = some true) = false)
    (h4 : detectBot env d.userAgent d.headers = false) :
    processAndQueueEvent env oracle st d now = processEventCore env oracle st d now := by
  unfold processAndQueueEvent
  rw [if_neg (by rw [h1]; simp), if_neg (by rw [h2]; simp), if_neg (by rw [h3]; simp),
    if_neg (by rw [h4]; simp)]

/-- Counterexample to claim C2 as stated. With an ordinary non-bot event, an
empty session and visitor cache and an external store whose lookup fails with
an error other than 404/conflict, `_processAndQueueEvent` evaluates to an
error: the rejection from `_getOrCreateVisitor` (awaited without try/catch at
src/index.js line 899) escapes `_processAndQueueEvent` to its caller rather
than being caught, logged and swallowed there. -/
theorem claim_C2_counterexample :
    (processAndQueueEvent testEnv (fun _ => .errOther)
      { siteId := some "site1" } testEvent 50).1 = .error .other ∧
    ({ siteId := some "site1" } : SdkState).isArchived = false ∧
    detectBot testEnv testEvent.userAgent testEvent.headers = false :=
  ⟨rfl, rfl, by decide⟩

/-- Claim C2 as amended. If visitor resolution fails with an external-store
error other than not-found or conflict, the pipeline does abort processing of
that event — the only store call issued is the failed visitor lookup, so no
session is created and no event or error is queued — but the failure is NOT
converted into a log line plus early return inside `_processAndQueueEvent`:
the call rejects with that error to its caller. -/
theorem claim_C2_resolution_error (env : Env) (oracle : Nat → StoreReply) (st : SdkState)
    (d : EventData) (now : Nat)
    (h1 : st.isArchived = false)
    (h2 : (optTruthy d.ip && st.ipBlacklist.contains (optStr d.ip)) = false)
    (h3 : (st.disableLocalhostTracking && optTruthy d.ip &&
      env.ipIsLoopback (optStr d.ip) = some true) = false)
    (h4 : detectBot env d.userAgent d.headers = false)
    (hsess : assocGet (generateVisitorId st.siteId d.ip d.userAgent) st.sessionCache = none)
    (hvc : assocGet (generateVisitorId st.siteId d.ip d.userAgent) st.visitorCache = none)
    (horacle : oracle 0 = .errOther) :
    processAndQueueEvent env oracle st d now =
      (.error .other,
       ⟨1, [.lookupVisitor (generateVisitorId st.siteId d.ip d.userAgent)]⟩) := by
  rw [processAndQueueEvent_open env oracle st d now h1 h2 h3 h4]
  simp [processEventCore, createSessionPath, getOrCreateVisitor, getOrCreateVisitorMiss,
    storeCall, StoreCtx.init, hsess, hvc, horacle, asId]

/-- Witness for the amended claim C2 at a concrete input. -/
theorem claim_C2_resolution_error_witness :
    processAndQueueEvent testEnv (fun _ => .errOther) { siteId := some "site1" } testEvent 50 =
      (.error .other,
       ⟨1, [.lookupVisitor (generateVisitorId (some "site1") (some "1.2.3.4")
         (some "Mozilla/5.0 Test"))]⟩) :=
  claim_C2_resolution_error testEnv _ { siteId := some "site1" } testEvent 50
    rfl (by decide) (by decide) (by decide) rfl rfl rfl

/-- Claim C4. Session renewal versus rotation in `_processAndQueueEvent`
(src/index.js lines 856-947), for the visitor fingerprint of the incoming
event, with a cached session whose lastActivity is T. First conjunct: an
event arriving at now < T + sessionTimeout whose renewal write succeeds
reuses the cached session — the cache entry keeps the same sessionId, its
lastActivity moves to now (the session stays active) and its event count is
bumped. Second conjunct: an event arriving at now ≥ T + sessionTimeout (in
particular exactly at the boundary) issues a session create and replaces the
cache entry with `{sessionId := new id, lastActivity := now, eventCount := 1,
isEngaged := duration signal}`. -/
theorem claim_C4_session_timeout (env : Env) (oracle : Nat → StoreReply) (st : SdkState)
    (d : EventData) (now T : Nat) (cs : SessionEntry)
    (h1 : st.isArchived = false)
    (h2 : (optTruthy d.ip && st.ipBlacklist.contains (optStr d.ip)) = false)
    (h3 : (st.disableLocalhostTracking && optTruthy d.ip &&
      env.ipIsLoopback (optStr d.ip) = some true) = false)
    (h4 : detectBot env d.userAgent d.headers = false)
    (hcs : assocGet (generateVisitorId st.siteId d.ip d.userAgent) st.sessionCache = some cs)
    (hT : cs.lastActivity = T) :
    (T ≤ now → now < T + st.sessionTimeout → oracle 0 = .okUnit →
      ∃ st', (processAndQueueEvent env oracle st d now).1 = .ok st' ∧
        assocGet (generateVisitorId st.siteId d.ip d.userAgent) st'.sessionCache =
          some (touchSessionEntry cs now d.customDuration) ∧
        (touchSessionEntry cs now d.customDuration).sessionId = cs.sessionId ∧
        (touchSessionEntry cs now d.customDuration).lastActivity = now ∧
        (touchSessionEntry cs now d.customDuration).eventCount = cs.eventCount + 1)
    ∧ (∀ vc : VisitorCacheEntry, T + st.sessionTimeout ≤ now →
      assocGet (generateVisitorId st.siteId d.ip d.userAgent) st.visitorCache = some vc →
      now - vc.cachedAt < VISITOR_CACHE_TTL_MS → ∀ n, oracle 0 = .okId n →
      ∃ st', (processAndQueueEvent env oracle st d now).1 = .ok st' ∧
        assocGet (generateVisitorId st.siteId d.ip d.userAgent) st'.sessionCache =
          some ⟨n, now, 1, durationSignal d.customDuration⟩ ∧
        (processAndQueueEvent env oracle st d now).2.log.head? =
          some (.createSession vc.id)) := by
  rw [processAndQueueEvent_open env oracle st d now h1 h2 h3 h4]
  constructor
  · intro ha hb horacle
    have hin : now - cs.lastActivity < st.sessionTimeout := by omega
    simp only [processEventCore, hcs]
    rw [if_pos hin]
    simp only [storeCall, StoreCtx.init, horacle, asUnit]
    refine ⟨_, rfl, ?_, (touchSessionEntry_fields cs now d.customDuration).1,
      (touchSessionEntry_fields cs now d.customDuration).2.1,
      (touchSessionEntry_fields cs now d.customDuration).2.2⟩
    rw [afterSession_fst_sessionCache]
    exact assocGet_assocSet_self _ _ _
  · intro vc hout hvc hfresh n horacle
    have hnin : ¬ (now - cs.lastActivity < st.sessionTimeout) := by omega
    simp only [processEventCore, hcs]
    rw [if_neg hnin]
    simp only [createSessionPath, getOrCreateVisitor, hvc]
    rw [if_pos hfresh]
    simp only [storeCall, StoreCtx.init, horacle, asId]
    refine ⟨_, rfl, ?_, ?_⟩
    · rw [afterSession_fst_sessionCache]
      exact assocGet_assocSet_self _ _ _
    · exact afterSession_log_head env oracle _ _ d _ _ _ rfl


/-- Witness for claim C4 at concrete inputs: an event at 500 < 100 + 1000
renews session 42 (count 2, engaged by second event), and an event exactly at
the boundary 1100 = 100 + 1000 creates and caches session 9 via a store
create for visitor record 7. -/
theorem claim_C4_session_timeout_witness :
    (∃ st', (processAndQueueEvent testEnv (fun _ => .okUnit) testStateC4 testEvent 500).1 =
        .ok st' ∧
      assocGet "site1-1.2.3.4-Mozilla/5.0 Test" st'.sessionCache =
        some (touchSessionEntry ⟨42, 100, 1, false⟩ 500 none) ∧
      (touchSessionEntry ⟨42, 100, 1, false⟩ 500 none).sessionId = 42 ∧
      (touchSessionEntry ⟨42, 100, 1, false⟩ 500 none).lastActivity = 500 ∧
      (touchSessionEntry ⟨42, 100, 1, false⟩ 500 none).eventCount = 2)
    ∧ (∃ st', (processAndQueueEvent testEnv (fun _ => .okId 9) testStateC4 testEvent 1100).1 =
        .ok st' ∧
      assocGet "site1-1.2.3.4-Mozilla/5.0 Test" st'.sessionCache = some ⟨9, 1100, 1, false⟩ ∧
      (processAndQueueEvent testEnv (fun _ => .okId 9) testStateC4 testEvent 1100).2.log.head? =
        some (.createSession 7)) :=
  ⟨(claim_C4_session_timeout testEnv (fun _ => .okUnit) testStateC4 testEvent 500 100
      ⟨42, 100, 1, false⟩ rfl (by decide) (by decide) (by decide) (by decide) rfl).1
      (by decide) (by decide) rfl,
   (claim_C4_session_timeout testEnv (fun _ => .okId 9) testStateC4 testEvent 1100 100
      ⟨42, 100, 1, false⟩ rfl (by decide) (by decide) (by decide) (by decide) rfl).2
      ⟨7, 0⟩ (by decide) (by decide) (by decide) 9 rfl⟩

/-! Lemmas for the error-dedup claim: counting, key uniqueness and key
injectivity. -/

theorem sumAt_assocSet_none {β : Type} (f : β → Nat) (k key : String) (v : β)
    (l : List (String × β)) (h : assocGet key l = none) :
    sumAt f k (assocSet key v l) = sumAt f k l + (if key = k then f v else 0) := by
  rw [assocSet_of_get_none key v l h]
  simp [sumAt]

theorem sumAt_assocSet_found {β : Type} (f : β → Nat) (k key : String) (v c : β)
    (l : List (String × β)) (h : assocGet key l = some c) (n : Nat) (hv : f v = f c + n) :
    sumAt f k (assocSet key v l) = sumAt f k l + (if key = k then n else 0) := by
  induction l with
  | nil => simp [assocGet] at h
  | cons hd tl ih =>
    by_cases h1 : hd.1 = key
    · simp only [assocGet, if_pos h1, Option.some.injEq] at h
      simp only [assocSet, if_pos h1, sumAt, List.map_cons, List.sum_cons]
      subst h
      by_cases h2 : key = k
      · rw [h1, if_pos h2, if_pos h2, if_pos h2, hv]
        omega
      · rw [h1, if_neg h2, if_neg h2, if_neg h2]
        omega
    · simp only [assocGet, if_neg h1] at h
      simp only [assocSet, if_neg h1, sumAt, List.map_cons, List.sum_cons]
      have := ih h
      simp only [sumAt] at this
      omega

theorem assocGet_none_not_memKeys {β : Type} {k : String} {l : List (String × β)}
    (h : assocGet k l = none) : k ∉ assocKeys l := by
  induction l with
  | nil => simp [assocKeys]
  | cons hd tl ih =>
    simp only [assocGet] at h
    by_cases h1 : hd.1 = k
    · rw [if_pos h1] at h
      simp at h
    · rw [if_neg h1] at h
      simp only [assocKeys, List.map_cons, List.mem_cons, not_or]
      exact ⟨fun he => h1 he.symm, by simpa [assocKeys] using ih h⟩

theorem sumAt_of_not_memKeys {β : Type} (f : β → Nat) {k : String} {l : List (String × β)}
    (h : k ∉ assocKeys l) : sumAt f k l = 0 := by
  induction l with
  | nil => simp [sumAt]
  | cons hd tl ih =>
    simp only [assocKeys, List.map_cons, List.mem_cons, not_or] at h
    simp only [sumAt, List.map_cons, List.sum_cons]
    rw [if_neg (fun he => h.1 he.symm)]
    simpa [sumAt] using ih (by simpa [assocKeys] using h.2)

theorem sumAt_of_nodup_found {β : Type} (f : β → Nat) {k : String} {l : List (String × β)}
    {c : β} (hn : (assocKeys l).Nodup) (h : assocGet k l = some c) : sumAt f k l = f c := by
  induction l with
  | nil => simp [assocGet] at h
  | cons hd tl ih =>
    simp only [assocKeys, List.map_cons, List.nodup_cons] at hn
    simp only [assocGet] at h
    simp only [sumAt, List.map_cons, List.sum_cons]
    by_cases h1 : hd.1 = k
    · rw [if_pos h1] at h
      rw [if_pos h1]
      have hnm : k ∉ assocKeys tl := h1 ▸ hn.1
      have hz := sumAt_of_not_memKeys f hnm
      simp only [sumAt] at hz
      simp only [Option.some.injEq] at h
      simp [h, hz]
    · rw [if_neg h1] at h
      rw [if_neg h1]
      have := ih hn.2 h
      simp only [sumAt] at this
      omega

theorem assocKeys_assocSet_found {β : Type} (k : String) (v c : β) (l : List (String × β))
    (h : assocGet k l = some c) : assocKeys (assocSet k v l) = assocKeys l := by
  induction l with
  | nil => simp [assocGet] at h
  | cons hd tl ih =>
    simp only [assocGet] at h
    by_cases h1 : hd.1 = k
    · simp [assocSet, assocKeys, h1]
    · rw [if_neg h1] at h
      simp only [assocSet, if_neg h1, assocKeys, List.map_cons, List.cons.injEq, true_and]
      simpa [assocKeys] using ih h

theorem assocKeys_nodup_assocSet {β : Type} (k : String) (v : β) (l : List (String × β))
    (h : (assocKeys l).Nodup) : (assocKeys (assocSet k v l)).Nodup := by
  rcases hg : assocGet k l with _ | c
  · rw [assocSet_of_get_none k v l hg]
    have : assocKeys (l ++ [(k, v)]) = assocKeys l ++ [k] := by simp [assocKeys]
    rw [this]
    simp [List.nodup_append, h, assocGet_none_not_memKeys hg]
  · rw [assocKeys_assocSet_found k v c l hg]
    exact h

theorem flushErrorsInto_sumAt (q : List (String × ErrEntry)) :
    ∀ (store : List (String × Nat)) (k : String),
    sumAt id k (flushErrorsInto store q) = sumAt id k store + sumAt entryCount k q := by
  induction q with
  | nil => intro store k; simp [flushErrorsInto, sumAt]
  | cons ke rest ih =>
    intro store k
    rcases hg : assocGet ke.1 store with _ | c
    · have hstep := sumAt_assocSet_none id k ke.1 ke.2.count store hg
      have hrec := ih (assocSet ke.1 ke.2.count store) k
      simp only [flushErrorsInto, hg]
      rw [hrec, hstep]
      simp only [sumAt, List.map_cons, List.sum_cons, id_eq, entryCount]
      split <;> omega
    · have hstep := sumAt_assocSet_found id k ke.1 (c + ke.2.count) c store hg ke.2.count rfl
      have hrec := ih (assocSet ke.1 (c + ke.2.count) store) k
      simp only [flushErrorsInto, hg]
      rw [hrec, hstep]
      simp only [sumAt, List.map_cons, List.sum_cons, id_eq, entryCount]
      split <;> omega

theorem flushErrorsInto_keys_nodup (q : List (String × ErrEntry)) :
    ∀ store : List (String × Nat), (assocKeys store).Nodup →
    (assocKeys (flushErrorsInto store q)).Nodup := by
  induction q with
  | nil => intro store h; simpa [flushErrorsInto] using h
  | cons ke rest ih =>
    intro store h
    rcases hg : assocGet ke.1 store with _ | c <;> simp only [flushErrorsInto, hg]
    · exact ih (assocSet ke.1 ke.2.count store) (assocKeys_nodup_assocSet _ _ _ h)
    · exact ih (assocSet ke.1 (c + ke.2.count) store) (assocKeys_nodup_assocSet _ _ _ h)



theorem flushErrorsInto_pos (q : List (String × ErrEntry)) :
    ∀ store : List (String × Nat), storePos store → qPos q →
    storePos (flushErrorsInto store q) := by
  induction q with
  | nil => intro store h _; simpa [flushErrorsInto] using h
  | cons ke rest ih =>
    intro store hs hq
    have hql : qPos rest := fun p hp => hq p (List.mem_cons_of_mem _ hp)
    have hke : 1 ≤ ke.2.count := hq ke (List.mem_cons_self _ _)
    rcases hg : assocGet ke.1 store with _ | c <;> simp only [flushErrorsInto, hg]
    · have hs' : storePos (assocSet ke.1 ke.2.count store) := by
        intro p hp
        rcases mem_assocSet hp with h | h
        · subst h; exact hke
        · exact hs p h
      exact ih (assocSet ke.1 ke.2.count store) hs' hql
    · have hs' : storePos (assocSet ke.1 (c + ke.2.count) store) := by
        intro p hp
        rcases mem_assocSet hp with h | h
        · subst h; simp; omega
        · exact hs p h
      exact ih (assocSet ke.1 (c + ke.2.count) store) hs' hql

/-- One processed report adds exactly one to the in-flight count at its dedup
key and leaves every other key unchanged. -/
theorem recordErrorReport_count (sq : List (String × Nat) × List (String × ErrEntry))
    (r : ErrReport) (k : String) :
    errCount (recordErrorReport sq r) k = errCount sq k + (if errKey r = k then 1 else 0) := by
  rcases hg : assocGet (errKey r) sq.2 with _ | e <;> simp only [recordErrorReport, hg]
  · split
    · have hflush := flushErrorsInto_sumAt sq.2 sq.1 k
      have hins := sumAt_assocSet_none entryCount k (errKey r)
        ⟨0, some r.msg, r.stack, "", 1⟩ [] rfl
      have h0 : sumAt entryCount k ([] : List (String × ErrEntry)) = 0 := rfl
      simp only [errCount, sCount, qCount]
      rw [hins, h0, hflush]
      simp only [entryCount]
      split <;> omega
    · have hins := sumAt_assocSet_none entryCount k (errKey r)
        ⟨0, some r.msg, r.stack, "", 1⟩ sq.2 hg
      simp only [errCount, sCount, qCount]
      rw [hins]
      simp only [entryCount]
      split <;> omega
  · have hins := sumAt_assocSet_found entryCount k (errKey r)
      { e with count := e.count + 1 } e sq.2 hg 1 rfl
    simp only [errCount, sCount, qCount]
    rw [hins]
    split <;> omega

theorem reportCount_cons (k : String) (r : ErrReport) (rs : List ErrReport) :
    reportCount k (r :: rs) = (if errKey r = k then 1 else 0) + reportCount k rs := by
  simp only [reportCount, List.filter_cons]
  by_cases hk : errKey r = k
  · simp [hk, Nat.add_comm]
  · simp [hk]

theorem processReports_count (rs : List ErrReport) :
    ∀ (sq : List (String × Nat) × List (String × ErrEntry)) (k : String),
    errCount (rs.foldl recordErrorReport sq) k = errCount sq k + reportCount k rs := by
  induction rs with
  | nil => intro sq k; simp [reportCount]
  | cons r rest ih =>
    intro sq k
    simp only [List.foldl_cons]
    rw [ih, recordErrorReport_count, reportCount_cons]
    omega

theorem recordErrorReport_store_nodup (sq : List (String × Nat) × List (String × ErrEntry))
    (r : ErrReport) (h : (assocKeys sq.1).Nodup) :
    (assocKeys (recordErrorReport sq r).1).Nodup := by
  rcases hg : assocGet (errKey r) sq.2 with _ | e <;> simp only [recordErrorReport, hg]
  · split
    · exact flushErrorsInto_keys_nodup sq.2 sq.1 h
    · exact h
  · exact h

theorem recordErrorReport_pos (sq : List (String × Nat) × List (String × ErrEntry))
    (r : ErrReport) (hs : storePos sq.1) (hq : qPos sq.2) :
    storePos (recordErrorReport sq r).1 ∧ qPos (recordErrorReport sq r).2 := by
  rcases hg : assocGet (errKey r) sq.2 with _ | e <;> simp only [recordErrorReport, hg]
  · split
    · refine ⟨flushErrorsInto_pos sq.2 sq.1 hs hq, ?_⟩
      intro p hp
      rcases mem_assocSet hp with h | h
      · subst h; simp
      · simp at h
    · refine ⟨hs, ?_⟩
      intro p hp
      rcases mem_assocSet hp with h | h
      · subst h; simp
      · exact hq p h
  · refine ⟨hs, ?_⟩
    intro p hp
    rcases mem_assocSet hp with h | h
    · subst h
      simp
    · exact hq p h

theorem processReports_store_nodup (rs : List ErrReport) :
    ∀ sq, (assocKeys sq.1).Nodup → (assocKeys (rs.foldl recordErrorReport sq).1).Nodup := by
  induction rs with
  | nil => intro sq h; simpa using h
  | cons r rest ih =>
    intro sq h
    simp only [List.foldl_cons]
    exact ih _ (recordErrorReport_store_nodup sq r h)

theorem processReports_pos (rs : List ErrReport) :
    ∀ sq, storePos sq.1 → qPos sq.2 →
    storePos (rs.foldl recordErrorReport sq).1 ∧ qPos (rs.foldl recordErrorReport sq).2 := by
  induction rs with
  | nil => intro sq hs hq; exact ⟨hs, hq⟩
  | cons r rest ih =>
    intro sq hs hq
    simp only [List.foldl_cons]
    obtain ⟨hs', hq'⟩ := recordErrorReport_pos sq r hs hq
    exact ih _ hs' hq'

theorem assocGet_some_mem {β : Type} {k : String} {l : List (String × β)} {c : β}
    (h : assocGet k l = some c) : (k, c) ∈ l := by
  induction l with
  | nil => simp [assocGet] at h
  | cons hd tl ih =>
    simp only [assocGet] at h
    by_cases h1 : hd.1 = k
    · rw [if_pos h1] at h
      simp only [Option.some.injEq] at h
      rw [List.mem_cons]
      left
      rw [← h1, ← h]
    · rw [if_neg h1] at h
      exact List.mem_cons_of_mem _ (ih h)

/-! Injectivity of the error dedup key. Every piece produced by splitting on
the newline character is newline-free, and a string of the form
(message ++ newline ++ newline-free line) decomposes uniquely. -/

theorem splitNl_no_nl (l : List Char) : ∀ piece ∈ splitNl l, '\n' ∉ piece := by
  induction l with
  | nil =>
    intro piece h
    simp [splitNl] at h
    simp [h]
  | cons c rest ih =>
    intro piece h
    rcases hsp : splitNl rest with _ | ⟨first, others⟩
    · simp only [splitNl, hsp] at h
      simp at h
      simp [h]
    · simp only [splitNl, hsp] at h
      by_cases hc : c = '\n'
      · rw [if_pos hc] at h
        rcases List.mem_cons.1 h with h1 | h1
        · subst h1; simp
        · exact ih piece (by rw [hsp]; exact h1)
      · rw [if_neg hc] at h
        rcases List.mem_cons.1 h with h1 | h1
        · subst h1
          intro hmem
          rcases List.mem_cons.1 hmem with h2 | h2
          · exact hc h2.symm
          · exact ih first (by rw [hsp]; exact List.mem_cons_self _ _) h2
        · exact ih piece (by rw [hsp]; exact List.mem_cons_of_mem _ h1)

theorem errSecondLine_no_nl (s : String) : '\n' ∉ (errSecondLine s).data := by
  unfold errSecondLine
  rcases hsp : splitNl s.data with _ | ⟨a, tail⟩
  · show '\n' ∉ "undefined".data
    decide
  · rcases tail with _ | ⟨l, rest⟩
    · show '\n' ∉ "undefined".data
      decide
    · show '\n' ∉ (String.mk l).data
      exact splitNl_no_nl s.data l (by rw [hsp]; exact List.mem_cons_of_mem _ (List.mem_cons_self _ _))

theorem strData_append (a b : String) : (a ++ b).data = a.data ++ b.data := by
  cases a
  cases b
  rfl

theorem strExt {a b : String} (h : a.data = b.data) : a = b := by
  cases a
  cases b
  exact congrArg String.mk h

theorem errIdentifier_data (msg sl : String) :
    (msg ++ "\n" ++ sl).data = msg.data ++ '\n' :: sl.data := by
  rw [strData_append, strData_append]
  simp

theorem append_nl_inj (m₁ l₁ m₂ l₂ : List Char) (h₁ : '\n' ∉ l₁) (h₂ : '\n' ∉ l₂)
    (h : m₁ ++ '\n' :: l₁ = m₂ ++ '\n' :: l₂) : m₁ = m₂ ∧ l₁ = l₂ := by
  induction m₁ generalizing m₂ with
  | nil =>
    cases m₂ with
    | nil => simpa using h
    | cons b bs =>
      simp only [List.nil_append, List.cons_append, List.cons.injEq] at h
      exact absurd (h.2 ▸ List.mem_append_right bs (List.mem_cons_self _ _)) h₁
  | cons a as ih =>
    cases m₂ with
    | nil =>
      simp only [List.nil_append, List.cons_append, List.cons.injEq] at h
      exact absurd (h.2.symm ▸ List.mem_append_right as (List.mem_cons_self _ _)) h₂
    | cons b bs =>
      simp only [List.cons_append, List.cons.injEq] at h
      obtain ⟨hm, hl⟩ := ih bs h.2
      exact ⟨by rw [h.1, hm], hl⟩

theorem errKey_eq_iff (r₁ r₂ : ErrReport) :
    errKey r₁ = errKey r₂ ↔
      (r₁.msg = r₂.msg ∧
       errSecondLine (if optTruthy r₁.stack then optStr r₁.stack else "") =
         errSecondLine (if optTruthy r₂.stack then optStr r₂.stack else "")) := by
  constructor
  · intro h
    simp only [errKey, errIdentifier, jsStr] at h
    have hd := congrArg String.data h
    rw [errIdentifier_data, errIdentifier_data] at hd
    obtain ⟨hm, hl⟩ := append_nl_inj _ _ _ _
      (errSecondLine_no_nl _) (errSecondLine_no_nl _) hd
    exact ⟨strExt hm, strExt hl⟩
  · intro h
    simp only [errKey, errIdentifier, jsStr, h.1, h.2]

/-- Claim C8. Error deduplication (src/index.js lines 949-979 and 669-717,
with the persisted js_errors collection modelled as a hash-to-counter map and
the sha256 hex digest modelled by its preimage, the dedup identifier).
First conjunct: two accepted jsError reports map to the same dedup key
exactly when they have the same errorMessage and the same second stack-trace
line, so reports differing in either are never merged. Second conjunct: after
processing any stream of accepted reports (including the forced flushes at
the queue ceiling) and a final flush, the persisted store holds exactly one
record per occurring key, whose count equals the total number of reports with
that key, and no record for a key with no reports. -/
theorem claim_C8_error_dedup :
    (∀ r₁ r₂ : ErrReport, errKey r₁ = errKey r₂ ↔
      (r₁.msg = r₂.msg ∧
       errSecondLine (if optTruthy r₁.stack then optStr r₁.stack else "") =
         errSecondLine (if optTruthy r₂.stack then optStr r₂.stack else "")))
    ∧ (∀ (rs : List ErrReport) (k : String),
      assocGet k (persistedErrors rs) =
        if reportCount k rs = 0 then none else some (reportCount k rs)) := by
  refine ⟨errKey_eq_iff, ?_⟩
  intro rs k
  have hcount : errCount (processErrorReports rs) k = reportCount k rs := by
    have h := processReports_count rs ([], []) k
    simpa [processErrorReports, errCount, sCount, qCount, sumAt] using h
  have hsum : sumAt id k (persistedErrors rs) = reportCount k rs := by
    unfold persistedErrors
    rw [flushErrorsInto_sumAt]
    simpa [errCount, sCount, qCount] using hcount
  have hnodup : (assocKeys (persistedErrors rs)).Nodup := by
    have h1 := processReports_store_nodup rs ([], []) (by simp [assocKeys])
    exact flushErrorsInto_keys_nodup _ _ h1
  have hpos : storePos (persistedErrors rs) := by
    obtain ⟨hs, hq⟩ := processReports_pos rs ([], [])
      (by intro p hp; simp at hp) (by intro p hp; simp at hp)
    exact flushErrorsInto_pos _ _ hs hq
  rcases hg : assocGet k (persistedErrors rs) with _ | c
  · have h0 : sumAt id k (persistedErrors rs) = 0 :=
      sumAt_of_not_memKeys id (assocGet_none_not_memKeys hg)
    rw [hsum] at h0
    simp [h0]
  · have hc := sumAt_of_nodup_found id hnodup hg
    rw [hsum] at hc
    simp only [id_eq] at hc
    have hcpos : 1 ≤ c := hpos (k, c) (assocGet_some_mem hg)
    rw [if_neg (by omega)]
    rw [hc]

/-! Invariant proof for the concurrent visitor-resolution model. -/

theorem listGet_mem {α : Type} {l : List α} {i : Nat} {a : α}
    (h : l.get? i = some a) : a ∈ l := by
  induction l generalizing i with
  | nil => simp [List.get?] at h
  | cons x xs ih =>
    cases i with
    | zero =>
      injection h with h
      exact h ▸ List.mem_cons_self _ _
    | succ n => exact List.mem_cons_of_mem _ (ih (by simpa using h))

theorem listMem_get {α : Type} {l : List α} {a : α} (h : a ∈ l) :
    ∃ i, l.get? i = some a := by
  induction l with
  | nil => simp at h
  | cons x xs ih =>
    rcases List.mem_cons.1 h with h1 | h1
    · exact ⟨0, by simp [h1]⟩
    · obtain ⟨i, hi⟩ := ih h1
      exact ⟨i + 1, by simpa using hi⟩

theorem listGet_replicate {α : Type} {n i : Nat} {a b : α}
    (h : (List.replicate n a).get? i = some b) : b = a := by
  induction n generalizing i with
  | zero => simp [List.replicate] at h
  | succ m ih =>
    cases i with
    | zero =>
      rw [List.replicate] at h
      injection h with h
      exact h.symm
    | succ j => exact ih (by rw [List.replicate] at h; simpa using h)


theorem getSet_cases {α : Type} {l : List α} {i j : Nat} {p q : α} (hlt : i < l.length)
    (hj : (l.set i p).get? j = some q) :
    (j = i ∧ q = p) ∨ (j ≠ i ∧ l.get? j = some q) := by
  by_cases hji : j = i
  · subst hji
    rw [listGet_set_self _ _ _ hlt] at hj
    injection hj with hj
    exact Or.inl ⟨rfl, hj.symm⟩
  · rw [listGet_set_other _ _ _ _ (fun he => hji he.symm)] at hj
    exact Or.inr ⟨hji, hj⟩

theorem leaderAtL_set_nonleader {l : List CallerPhase} {i : Nat} {p : CallerPhase}
    (hlt : i < l.length) (hp1 : p ≠ .leaderLookup) (hp2 : p ≠ .leaderCreate) :
    ∀ j, leaderAtL (l.set i p) j → leaderAtL l j := by
  intro j hj
  rcases hj with hj | hj
  · rcases getSet_cases hlt hj with ⟨_, h⟩ | ⟨_, h⟩
    · exact absurd h.symm hp1
    · exact Or.inl h
  · rcases getSet_cases hlt hj with ⟨_, h⟩ | ⟨_, h⟩
    · exact absurd h.symm hp2
    · exact Or.inr h


/-- Every interleaving step preserves the invariant. -/
theorem concInv_step {n : Nat} {s s' : ConcState} (hinv : ConcInv n s)
    (hstep : ConcStep s s') : ConcInv n s' := by
  cases hstep with
  | startCached i v hc hv =>
    have hlt : i < s.callers.length := listGet_some_lt hc
    have hstore := hinv.cachePin v hv
    refine ⟨by simpa using hinv.len, hinv.createNone, hinv.createOne, hinv.cachePin,
      hinv.promisePin, ?_, ?_, ?_, ?_, ?_⟩
    · intro j v' b' hj
      rcases getSet_cases hlt hj with ⟨_, h⟩ | ⟨_, h⟩
      · injection h with h1 h2
        rw [h1]
        exact hstore
      · exact hinv.donePin j v' b' h
    · intro j k hj hk
      exact hinv.leaderUnique j k
        (leaderAtL_set_nonleader hlt (by simp) (by simp) j hj)
        (leaderAtL_set_nonleader hlt (by simp) (by simp) k hk)
    · intro hl j hj
      exact hinv.leaderLock hl j (leaderAtL_set_nonleader hlt (by simp) (by simp) j hj)
    · intro hp j hj
      exact hinv.leaderSettled hp j (leaderAtL_set_nonleader hlt (by simp) (by simp) j hj)
    · intro j hj
      rcases getSet_cases hlt hj with ⟨_, h⟩ | ⟨_, h⟩
      · exact absurd h (by simp)
      · exact hinv.createStore j h
  | startJoin i hc hv hl =>
    have hlt : i < s.callers.length := listGet_some_lt hc
    refine ⟨by simpa using hinv.len, hinv.createNone, hinv.createOne, hinv.cachePin,
      hinv.promisePin, ?_, ?_, ?_, ?_, ?_⟩
    · intro j v' b' hj
      rcases getSet_cases hlt hj with ⟨_, h⟩ | ⟨_, h⟩
      · exact absurd h (by simp)
      · exact hinv.donePin j v' b' h
    · intro j k hj hk
      exact hinv.leaderUnique j k
        (leaderAtL_set_nonleader hlt (by simp) (by simp) j hj)
        (leaderAtL_set_nonleader hlt (by simp) (by simp) k hk)
    · intro hlf j hj
      exact hinv.leaderLock hlf j (leaderAtL_set_nonleader hlt (by simp) (by simp) j hj)
    · intro hp j hj
      exact hinv.leaderSettled hp j (leaderAtL_set_nonleader hlt (by simp) (by simp) j hj)
    · intro j hj
      rcases getSet_cases hlt hj with ⟨_, h⟩ | ⟨_, h⟩
      · exact absurd h (by simp)
      · exact hinv.createStore j h
  | startLead i hc hv hl =>
    have hlt : i < s.callers.length := listGet_some_lt hc
    have honly : ∀ j, leaderAtL (s.callers.set i .leaderLookup) j → j = i := by
      intro j hj
      rcases hj with hj | hj
      · rcases getSet_cases hlt hj with ⟨h1, _⟩ | ⟨_, h⟩
        · exact h1
        · exact absurd (Or.inl h) (hinv.leaderLock hl j)
      · rcases getSet_cases hlt hj with ⟨_, h⟩ | ⟨_, h⟩
        · exact absurd h (by simp)
        · exact absurd (Or.inr h) (hinv.leaderLock hl j)
    refine ⟨by simpa using hinv.len, hinv.createNone, hinv.createOne, hinv.cachePin,
      hinv.promisePin, ?_, ?_, ?_, ?_, ?_⟩
    · intro j v' b' hj
      rcases getSet_cases hlt hj with ⟨_, h⟩ | ⟨_, h⟩
      · exact absurd h (by simp)
      · exact hinv.donePin j v' b' h
    · intro j k hj hk
      rw [honly j hj, honly k hk]
    · intro hlf
      exact absurd hlf (by simp)
    · intro hp j hj
      rcases hpr : s.promiseResult with _ | vb
      · rw [hpr] at hp
        simp at hp
      · obtain ⟨_, hcache⟩ := hinv.promisePin vb.1 vb.2 (by rw [hpr])
        rw [hv] at hcache
        simp at hcache
    · intro j hj
      rcases getSet_cases hlt hj with ⟨_, h⟩ | ⟨_, h⟩
      · exact absurd h (by simp)
      · exact absurd (Or.inr h) (hinv.leaderLock hl j)
  | lookupFound i v hc hv =>
    have hlt : i < s.callers.length := listGet_some_lt hc
    have hnol : ∀ j, ¬ leaderAtL (s.callers.set i (.done v false)) j := by
      intro j hj
      rcases hj with hj | hj
      · rcases getSet_cases hlt hj with ⟨_, h⟩ | ⟨hne, h⟩
        · exact absurd h (by simp)
        · exact hne (hinv.leaderUnique j i (Or.inl h) (Or.inl hc))
      · rcases getSet_cases hlt hj with ⟨_, h⟩ | ⟨hne, h⟩
        · exact absurd h (by simp)
        · exact hne (hinv.leaderUnique j i (Or.inr h) (Or.inl hc))
    refine ⟨by simpa using hinv.len, hinv.createNone, hinv.createOne, ?_, ?_, ?_, ?_, ?_, ?_, ?_⟩
    · intro v' hcache
      injection hcache with h1
      rw [← h1]
      exact hv
    · intro v' b' hp
      injection hp with h1
      injection h1 with h2 h3
      exact ⟨by rw [← h2]; exact hv, by rw [← h2]⟩
    · intro j v' b' hj
      rcases getSet_cases hlt hj with ⟨_, h⟩ | ⟨_, h⟩
      · injection h with h1 h2
        rw [h1]
        exact hv
      · exact hinv.donePin j v' b' h
    · intro j k hj _
      exact absurd hj (hnol j)
    · intro _ j
      exact hnol j
    · intro _ j
      exact hnol j
    · intro j hj
      rcases getSet_cases hlt hj with ⟨_, h⟩ | ⟨_, h⟩
      · exact absurd h (by simp)
      · exact hinv.createStore j h
  | lookupMiss i hc hv =>
    have hlt : i < s.callers.length := listGet_some_lt hc
    have honly : ∀ j, leaderAtL (s.callers.set i .leaderCreate) j → j = i := by
      intro j hj
      rcases hj with hj | hj
      · rcases getSet_cases hlt hj with ⟨_, h⟩ | ⟨_, h⟩
        · exact absurd h (by simp)
        · exact hinv.leaderUnique j i (Or.inl h) (Or.inl hc)
      · rcases getSet_cases hlt hj with ⟨h1, _⟩ | ⟨_, h⟩
        · exact h1
        · exact hinv.leaderUnique j i (Or.inr h) (Or.inl hc)
    refine ⟨by simpa using hinv.len, hinv.createNone, hinv.createOne, hinv.cachePin,
      hinv.promisePin, ?_, ?_, ?_, ?_, ?_⟩
    · intro j v' b' hj
      rcases getSet_cases hlt hj with ⟨_, h⟩ | ⟨_, h⟩
      · exact absurd h (by simp)
      · exact hinv.donePin j v' b' h
    · intro j k hj hk
      rw [honly j hj, honly k hk]
    · intro hlf j hj
      exact absurd (Or.inl hc) (hinv.leaderLock hlf i)
    · intro hp j hj
      exact absurd (Or.inl hc) (hinv.leaderSettled hp i)
    · intro j hj
      exact hv
  | createOk i hc hv =>
    have hlt : i < s.callers.length := listGet_some_lt hc
    have hnol : ∀ j, ¬ leaderAtL (s.callers.set i (.done s.nextId true)) j := by
      intro j hj
      rcases hj with hj | hj
      · rcases getSet_cases hlt hj with ⟨_, h⟩ | ⟨hne, h⟩
        · exact absurd h (by simp)
        · exact hne (hinv.leaderUnique j i (Or.inl h) (Or.inr hc))
      · rcases getSet_cases hlt hj with ⟨_, h⟩ | ⟨hne, h⟩
        · exact absurd h (by simp)
        · exact hne (hinv.leaderUnique j i (Or.inr h) (Or.inr hc))
    refine ⟨by simpa using hinv.len, ?_, ?_, ?_, ?_, ?_, ?_, ?_, ?_, ?_⟩
    · intro h
      simp at h
    · intro v' hsv
      rw [hinv.createNone hv]
    · intro v' hcache
      injection hcache with h1
      rw [h1]
    · intro v' b' hp
      injection hp with h1
      injection h1 with h2 h3
      exact ⟨by rw [h2], by rw [h2]⟩
    · intro j v' b' hj
      rcases getSet_cases hlt hj with ⟨_, h⟩ | ⟨_, h⟩
      · injection h with h1 h2
        rw [h1]
      · have := hinv.donePin j v' b' h
        rw [hv] at this
        simp at this
    · intro j k hj _
      exact absurd hj (hnol j)
    · intro _ j
      exact hnol j
    · intro _ j
      exact hnol j
    · intro j hj
      rcases getSet_cases hlt hj with ⟨_, h⟩ | ⟨hne, h⟩
      · exact absurd h (by simp)
      · exact absurd (hinv.leaderUnique j i (Or.inr h) (Or.inr hc)) hne
  | createConflict i v hc hv =>
    have h0 := hinv.createStore i hc
    rw [h0] at hv
    exact Option.noConfusion hv
  | waiterResume i v b hc hp =>
    have hlt : i < s.callers.length := listGet_some_lt hc
    obtain ⟨hstore, hcache⟩ := hinv.promisePin v b hp
    have hps : s.promiseResult.isSome := by rw [hp]; rfl
    have hnol : ∀ j, ¬ leaderAtL (s.callers.set i (.done v b)) j := by
      intro j hj
      rcases hj with hj | hj
      · rcases getSet_cases hlt hj with ⟨_, h⟩ | ⟨_, h⟩
        · exact absurd h (by simp)
        · exact hinv.leaderSettled hps j (Or.inl h)
      · rcases getSet_cases hlt hj with ⟨_, h⟩ | ⟨_, h⟩
        · exact absurd h (by simp)
        · exact hinv.leaderSettled hps j (Or.inr h)
    refine ⟨by simpa using hinv.len, hinv.createNone, hinv.createOne, hinv.cachePin,
      hinv.promisePin, ?_, ?_, ?_, ?_, ?_⟩
    · intro j v' b' hj
      rcases getSet_cases hlt hj with ⟨_, h⟩ | ⟨_, h⟩
      · injection h with h1 h2
        rw [h1]
        exact hstore
      · exact hinv.donePin j v' b' h
    · intro j k hj _
      exact absurd hj (hnol j)
    · intro _ j
      exact hnol j
    · intro _ j
      exact hnol j
    · intro j hj
      rcases getSet_cases hlt hj with ⟨_, h⟩ | ⟨_, h⟩
      · exact absurd h (by simp)
      · exact hinv.createStore j h
  | cleanupLock v b hp hl =>
    have hps : s.promiseResult.isSome := by rw [hp]; rfl
    refine ⟨hinv.len, hinv.createNone, hinv.createOne, hinv.cachePin, hinv.promisePin,
      hinv.donePin, hinv.leaderUnique, ?_, hinv.leaderSettled, hinv.createStore⟩
    intro _ j
    exact hinv.leaderSettled hps j

/-- The invariant holds initially. -/
theorem concInv_init (n : Nat) : ConcInv n (initConc n) := by
  refine ⟨by simp [initConc], fun _ => rfl, ?_, ?_, ?_, ?_, ?_, ?_, ?_, ?_⟩
  · intro v h
    simp [initConc] at h
  · intro v h
    simp [initConc] at h
  · intro v b h
    simp [initConc] at h
  · intro i v b h
    have := listGet_replicate (a := CallerPhase.start) h
    simp at this
  · intro i j hi _
    rcases hi with hi | hi <;>
      · have := listGet_replicate (a := CallerPhase.start) hi
        simp at this
  · intro _ i hi
    rcases hi with hi | hi <;>
      · have := listGet_replicate (a := CallerPhase.start) hi
        simp at this
  · intro _ i hi
    rcases hi with hi | hi <;>
      · have := listGet_replicate (a := CallerPhase.start) hi
        simp at this
  · intro i hi
    have := listGet_replicate (a := CallerPhase.start) hi
    simp at this

/-- The invariant holds in every reachable state. -/
theorem concInv_reach {n : Nat} {s s' : ConcState} (hinv : ConcInv n s)
    (hreach : ConcReach s s') : ConcInv n s' := by
  induction hreach with
  | refl => exact hinv
  | tail _ hstep ih => exact concInv_step ih hstep

/-- Claim C1. In the concurrent model of `_getOrCreateVisitor` for one
fingerprint (src/index.js lines 439-496), starting from an empty external
store and n callers, every interleaving in which all callers have finished
issues exactly one create call to the external store, and all n callers hold
the same visitor record id. (This covers in particular all n calls issued
before the first completes, and is closed under the cache-hit, join-the-lock,
lookup-after-create and conflict paths.) -/
theorem claim_C1_single_flight (n : Nat) (s : ConcState)
    (hreach : ConcReach (initConc n) s)
    (hdone : ∀ p ∈ s.callers, ∃ v b, p = CallerPhase.done v b)
    (hn : 0 < n) :
    s.createCalls = 1 ∧
      ∃ w, s.storeVisitor = some w ∧
        ∀ p ∈ s.callers, ∃ b, p = CallerPhase.done w b := by
  have hinv := concInv_reach (concInv_init n) hreach
  obtain ⟨p0, hp0⟩ : ∃ p0, s.callers.get? 0 = some p0 := by
    rcases hcal : s.callers with _ | ⟨a, l⟩
    · have := hinv.len
      rw [hcal] at this
      simp at this
      omega
    · exact ⟨a, rfl⟩
  obtain ⟨v0, b0, hp0done⟩ := hdone p0 (listGet_mem hp0)
  have hstore : s.storeVisitor = some v0 :=
    hinv.donePin 0 v0 b0 (by rw [hp0, hp0done])
  refine ⟨hinv.createOne v0 hstore, v0, hstore, ?_⟩
  intro p hp
  obtain ⟨v, b, hpd⟩ := hdone p hp
  obtain ⟨i, hi⟩ := listMem_get hp
  have hpin := hinv.donePin i v b (by rw [hi, hpd])
  rw [hstore] at hpin
  injection hpin with hvv
  exact ⟨b, by rw [hpd, ← hvv]⟩






/-- The witness interleaving is a run of the system. -/
theorem concW_reach : ConcReach (initConc 2) concW5 :=
  Relation.ReflTransGen.tail
    (Relation.ReflTransGen.tail
      (Relation.ReflTransGen.tail
        (Relation.ReflTransGen.tail
          (Relation.ReflTransGen.tail Relation.ReflTransGen.refl
            (ConcStep.startLead (initConc 2) 0 rfl rfl rfl))
          (ConcStep.startJoin concW1 1 rfl rfl rfl))
        (ConcStep.lookupMiss concW2 0 rfl rfl))
      (ConcStep.createOk concW3 0 rfl rfl))
    (ConcStep.waiterResume concW4 1 1 true rfl rfl)

/-- Witness for claim C1: with two overlapping callers, the second joining
before the first completes, exactly one create call is issued and both
callers end with visitor record 1. -/
theorem claim_C1_single_flight_witness :
    concW5.createCalls = 1 ∧
      ∃ w, concW5.storeVisitor = some w ∧
        ∀ p ∈ concW5.callers, ∃ b, p = CallerPhase.done w b :=
  claim_C1_single_flight 2 concW5 concW_reach
    (by
      intro p hp
      have hp1 : p = CallerPhase.done 1 true := by simpa [concW5] using hp
      exact ⟨1, true, hp1⟩)
    (by decide)

end Skopos
